import Mathlib

set_option maxHeartbeats 1600000

/-!
Verification development for the MandelbrotSet repository
(src/MandelbrotSet.c, src/MandelbrotSet.h, and the PGM-printing main).

Embedding conventions:
* the C type real (long double) is modelled by the exact rationals ℚ;
  the model follows the source expressions literally;
* the pixel store (int **pixelScores) is modelled as a total function
  from row and column indices to integer scores, and a store to one
  cell is a pointwise functional update;
* void functions mutating the struct are modelled as functions returning
  the updated state; the stateful order of operations of the C code
  (including the short-circuit evaluation of the && chains) is kept;
* zoom is modelled as a natural number, matching the defined behaviour
  of the C shift expression (1ULL << zoom).
-/

/-- A pixel-score grid: the int ** pixel store, indexed row then column. -/
def Grid : Type := Nat → Nat → Int

/-- Store to one grid cell: pixelScores[row][col] = v. -/
def setPix (g : Grid) (row col : Nat) (v : Int) : Grid :=
  fun r c => if r = row ∧ c = col then v else g r c

/-- The fields of struct mandelbrotSetData that the generators read. -/
structure Viewport where
  left : ℚ
  top : ℚ
  resolution : ℚ
  maxIterations : Nat

/-- The cardioid fast-path test at the top of escapeScore:
xShifted = x - 0.25, sqCoordY = y*y, q = xShifted*xShifted + sqCoordY,
test q*(q + xShifted) < 0.25*sqCoordY. -/
def cardioidTest (x y : ℚ) : Bool :=
  let xShifted := x - 1/4
  let sqCoordY := y * y
  let q := xShifted * xShifted + sqCoordY
  decide (q * (q + xShifted) < (1/4) * sqCoordY)

/-- The escape iteration loop of escapeScore.  The C loop state is
(x, y, score) with xSq, ySq caching x*x and y*y; the guard is
xSq + ySq < 4 && score != maxIterations.  Here rem counts the
iterations still allowed, i.e. maxIterations - score, so the guard
score != maxIterations becomes rem != 0. -/
def escapeGo (cx cy : ℚ) : ℚ → ℚ → Nat → Nat → Nat
  | _, _, score, 0 => score
  | x, y, score, rem + 1 =>
    if x * x + y * y < 4 then
      escapeGo cx cy (x * x - y * y + cx) (2 * x * y + cy) (score + 1) rem
    else score

/-- escapeScore: cardioid fast path, otherwise the iteration loop
started from x = y = 0 with score = 0. -/
def escapeScore (v : Viewport) (x y : ℚ) : Nat :=
  if cardioidTest x y then v.maxIterations
  else escapeGo x y 0 0 0 v.maxIterations

/-- coord.x in generateSetPixel: left + (resolution * col + halfResolution). -/
def pixelX (v : Viewport) (col : Nat) : ℚ :=
  v.left + (v.resolution * col + v.resolution / 2)

/-- coord.y in generateSetPixel: top - (resolution * row + halfResolution). -/
def pixelY (v : Viewport) (row : Nat) : ℚ :=
  v.top - (v.resolution * row + v.resolution / 2)

/-- The score generateSetPixel computes for pixel (row, col). -/
def escapeScoreAt (v : Viewport) (row col : Nat) : Nat :=
  escapeScore v (pixelX v col) (pixelY v row)

/-- generateSetPixel: compute the pixel-center coordinate and store its
escape score at (row, col). -/
def generateSetPixel (v : Viewport) (g : Grid) (row col : Nat) : Grid :=
  setPix g row col (escapeScoreAt v row col)

/-- Inner column loop of generateRectangle: n columns from col; the C
guard col != startX + width counts the remaining columns down. -/
def rectColGo (v : Viewport) (row : Nat) : Nat → Nat → Grid → Grid
  | _, 0, g => g
  | col, n + 1, g => rectColGo v row (col + 1) n (generateSetPixel v g row col)

/-- Outer row loop of generateRectangle. -/
def rectRowGo (v : Viewport) (startX width : Nat) : Nat → Nat → Grid → Grid
  | _, 0, g => g
  | row, m + 1, g => rectRowGo v startX width (row + 1) m (rectColGo v row startX width g)

/-- generateRectangle: fill the rectangle pixel by pixel, rows outer,
columns inner. -/
def generateRectangle (v : Viewport) (startX startY width height : Nat) (g : Grid) : Grid :=
  rectRowGo v startX width startY height g

/-- Loop body of generateBlockRow: while (isSameColor && col != colStart+width)
write the pixel, then when col > 0 compare it with the grid cell at col - 1;
a detected difference ends the loop with result false. -/
def blockRowGo (v : Viewport) (row : Nat) : Nat → Nat → Grid → Bool × Grid
  | _, 0, g => (true, g)
  | col, n + 1, g =>
    let g1 := generateSetPixel v g row col
    if 0 < col ∧ g1 row col ≠ g1 row (col - 1) then (false, g1)
    else blockRowGo v row (col + 1) n g1

/-- generateBlockRow(fractal, row, colStart, width). -/
def generateBlockRow (v : Viewport) (g : Grid) (row colStart width : Nat) : Bool × Grid :=
  blockRowGo v row colStart width g

/-- Loop body of generateBlockCol, symmetric to blockRowGo. -/
def blockColGo (v : Viewport) (col : Nat) : Nat → Nat → Grid → Bool × Grid
  | _, 0, g => (true, g)
  | row, n + 1, g =>
    let g1 := generateSetPixel v g row col
    if 0 < row ∧ g1 row col ≠ g1 (row - 1) col then (false, g1)
    else blockColGo v col (row + 1) n g1

/-- generateBlockCol(fractal, col, rowStart, height). -/
def generateBlockCol (v : Viewport) (g : Grid) (col rowStart height : Nat) : Bool × Grid :=
  blockColGo v col rowStart height g

/-- Inner column loop of the pruning flood fill. -/
def fillColGo (val : Int) (row : Nat) : Nat → Nat → Grid → Grid
  | _, 0, g => g
  | col, n + 1, g => fillColGo val row (col + 1) n (setPix g row col val)

/-- Outer row loop of the pruning flood fill: m rows from rowStart,
width columns from startCol, all set to val. -/
def fillRowGo (val : Int) (startCol width : Nat) : Nat → Nat → Grid → Grid
  | _, 0, g => g
  | row, m + 1, g => fillRowGo val startCol width (row + 1) m (fillColGo val row startCol width g)

/-- The border-evaluation step of generateDivideAndConquer (lines 166-172):
canSkip = generateBlockRow(firstRow) && generateBlockRow(lastRow)
&& generateBlockCol(firstCol, firstRow+1, height-2)
&& generateBlockCol(lastCol, firstRow+1, height-2),
with C short-circuit evaluation: once a stage reports false the later
stages do not run (and write nothing). -/
def borderEval (v : Viewport) (startX startY width height : Nat) (g : Grid) : Bool × Grid :=
  match generateBlockRow v g startY startX width with
  | (false, g1) => (false, g1)
  | (true, g1) =>
    match generateBlockRow v g1 (startY + height - 1) startX width with
    | (false, g2) => (false, g2)
    | (true, g2) =>
      match generateBlockCol v g2 startX (startY + 1) (height - 2) with
      | (false, g3) => (false, g3)
      | (true, g3) => generateBlockCol v g3 (startX + width - 1) (startY + 1) (height - 2)

/-- generateDivideAndConquer (Mariani/Silver): rectangles with a side
under 3 go to generateRectangle; otherwise evaluate the border, and
either flood-fill the interior with the top-left corner score (when all
border checks passed and that score is nonzero) or split into four
quadrants at width/2, height/2 and recurse (top-left, top-right,
bottom-left, bottom-right, sequentially on the same grid). -/
def generateDivideAndConquer (v : Viewport) (startX startY width height : Nat) (g : Grid) : Grid :=
  if width < 3 ∨ height < 3 then
    generateRectangle v startX startY width height g
  else
    match borderEval v startX startY width height g with
    | (canSkip, g') =>
      if canSkip ∧ g' startY startX ≠ 0 then
        fillRowGo (g' startY startX) (startX + 1) (width - 2) (startY + 1) (height - 2) g'
      else
        generateDivideAndConquer v (startX + width / 2) (startY + height / 2)
            (width - width / 2) (height - height / 2)
          (generateDivideAndConquer v startX (startY + height / 2)
              (width / 2) (height - height / 2)
            (generateDivideAndConquer v (startX + width / 2) startY
                (width - width / 2) (height / 2)
              (generateDivideAndConquer v startX startY (width / 2) (height / 2) g')))
  termination_by width + height
  decreasing_by
  all_goals omega

/-- The session object: struct mandelbrotSetData. -/
@[ext]
structure Session where
  width : Nat
  height : Nat
  center : ℚ × ℚ
  resolution : ℚ
  top : ℚ
  left : ℚ
  grid : Grid
  maxIterations : Nat
  isGenerated : Bool

/-- The viewport data the generators read from the session. -/
def toViewport (s : Session) : Viewport :=
  { left := s.left, top := s.top, resolution := s.resolution,
    maxIterations := s.maxIterations }

/-- createMandelbrotSet: width and height fixed, maxIterations defaulted
to DEFAULT_MAX_ITERATIONS = 255, isGenerated false.  The freshly
malloc'd grid contents and the never-assigned center, resolution, top
and left fields are indeterminate in C, so they are parameters of the
model. -/
def createMandelbrotSet (width height : Nat) (g0 : Grid) (c0 : ℚ × ℚ) (r0 t0 l0 : ℚ) :
    Session :=
  { width := width, height := height, center := c0, resolution := r0,
    top := t0, left := l0, grid := g0, maxIterations := 255, isGenerated := false }

/-- MandelbrotSet_setPosition: resolution = 1 / (1 << zoom),
fractalWidth = width * resolution, fractalHeight = height * resolution,
left = center.x - fractalWidth/2, top = center.y + fractalHeight/2, and
the session becomes stale. -/
def MandelbrotSet_setPosition (s : Session) (center : ℚ × ℚ) (zoom : Nat) : Session :=
  let resolution : ℚ := 1 / ((2 : ℚ) ^ zoom)
  let fractalWidth : ℚ := (s.width : ℚ) * resolution
  let fractalHeight : ℚ := (s.height : ℚ) * resolution
  { s with center := center, resolution := resolution,
           left := center.1 - fractalWidth / 2,
           top := center.2 + fractalHeight / 2,
           isGenerated := false }

/-- MandelbrotSet_generate: naive full-viewport generation, then fresh. -/
def MandelbrotSet_generate (s : Session) : Session :=
  { s with grid := generateRectangle (toViewport s) 0 0 s.width s.height s.grid,
           isGenerated := true }

/-- MandelbrotSet_fastGenerate: accelerated full-viewport generation, then fresh. -/
def MandelbrotSet_fastGenerate (s : Session) : Session :=
  { s with grid := generateDivideAndConquer (toViewport s) 0 0 s.width s.height s.grid,
           isGenerated := true }

/-- MandelbrotSet_getScores: the grid when fresh, otherwise a diagnostic
on stderr and NULL, modelled as none. -/
def MandelbrotSet_getScores (s : Session) : Option Grid :=
  if s.isGenerated then some s.grid else none

/-- MandelbrotSet_setMaxIterations: assigns the field and nothing else. -/
def MandelbrotSet_setMaxIterations (s : Session) (m : Nat) : Session :=
  { s with maxIterations := m }

/-- The orbit of the quadratic recurrence started at (0, 0):
x' = x*x - y*y + cx, y' = 2*x*y + cy. -/
def orbit (cx cy : ℚ) : Nat → ℚ × ℚ
  | 0 => (0, 0)
  | k + 1 =>
    let p := orbit cx cy k
    (p.1 * p.1 - p.2 * p.2 + cx, 2 * p.1 * p.2 + cy)

/-- Squared modulus of the orbit after k iterations. -/
def orbitNormSq (cx cy : ℚ) (k : Nat) : ℚ :=
  (orbit cx cy k).1 * (orbit cx cy k).1 + (orbit cx cy k).2 * (orbit cx cy k).2

/-- A grid with arbitrary nonzero contents, standing for the
indeterminate malloc'd memory in the concrete scenarios below. -/
def g37 : Grid := fun _ _ => 37

/-- A 5 x 5 session at zoom 0 centered at the origin (pixel centers are
the integer points of the square from -2 to 2), maxIterations 2.  Its
16 border pixels all have squared modulus at least 4, hence uniform
escape score 1, while the central pixel (0, 0) is inside the cardioid. -/
def sessionFive : Session :=
  MandelbrotSet_setMaxIterations
    (MandelbrotSet_setPosition (createMandelbrotSet 5 5 g37 (0, 0) 0 0 0) (0, 0) 0) 2

/-- A 3 x 3 session at zoom 0 centered at (-1, -1) with maxIterations 2:
its top border row scores are 1 then 2, so the first border line of the
full rectangle is not uniform. -/
def sessionThree : Session :=
  MandelbrotSet_setMaxIterations
    (MandelbrotSet_setPosition (createMandelbrotSet 3 3 g37 (0, 0) 0 0 0) (-1, -1) 0) 2

/-- A 2 x 2 session (smaller than the subdivision floor). -/
def sessionTwo : Session :=
  MandelbrotSet_setMaxIterations
    (MandelbrotSet_setPosition (createMandelbrotSet 2 2 g37 (0, 0) 0 0 0) (0, 0) 0) 2

/-! ### Basic store lemmas -/

theorem setPix_self (g : Grid) (row col : Nat) (v : Int) : setPix g row col v row col = v := by
  simp [setPix]

theorem setPix_ne (g : Grid) (row col : Nat) (v : Int) (r c : Nat)
    (h : ¬(r = row ∧ c = col)) : setPix g row col v r c = g r c := by
  simp only [setPix, if_neg h]

theorem generateSetPixel_self (v : Viewport) (g : Grid) (row col : Nat) :
    generateSetPixel v g row col row col = (escapeScoreAt v row col : Int) := by
  simp [generateSetPixel, setPix]

theorem generateSetPixel_ne (v : Viewport) (g : Grid) (row col r c : Nat)
    (h : ¬(r = row ∧ c = col)) : generateSetPixel v g row col r c = g r c := by
  simp only [generateSetPixel, setPix, if_neg h]

/-! ### The escape scorer and the orbit -/

theorem orbit_zero (cx cy : ℚ) : orbit cx cy 0 = (0, 0) := rfl

theorem orbit_succ (cx cy : ℚ) (k : Nat) :
    orbit cx cy (k + 1) =
      ((orbit cx cy k).1 * (orbit cx cy k).1 - (orbit cx cy k).2 * (orbit cx cy k).2 + cx,
       2 * (orbit cx cy k).1 * (orbit cx cy k).2 + cy) := by
  simp [orbit]

theorem orbitNormSq_zero (cx cy : ℚ) : orbitNormSq cx cy 0 = 0 := by
  simp [orbitNormSq, orbit]

theorem escapeGo_le (cx cy : ℚ) :
    ∀ (rem score : Nat) (x y : ℚ), escapeGo cx cy x y score rem ≤ score + rem := by
  intro rem
  induction rem with
  | zero => intro score x y; simp [escapeGo]
  | succ n ih =>
    intro score x y
    simp only [escapeGo]
    split
    · calc escapeGo cx cy (x * x - y * y + cx) (2 * x * y + cy) (score + 1) n
          ≤ score + 1 + n := ih (score + 1) _ _
      _ ≤ score + (n + 1) := by omega
    · omega

theorem escapeScore_le (v : Viewport) (x y : ℚ) : escapeScore v x y ≤ v.maxIterations := by
  unfold escapeScore
  split
  · exact le_rfl
  · have := escapeGo_le x y v.maxIterations 0 0 0
    omega

theorem escapeGo_all_lt (cx cy : ℚ) :
    ∀ (rem score : Nat),
      (∀ i, i < rem → orbitNormSq cx cy (score + i) < 4) →
      escapeGo cx cy (orbit cx cy score).1 (orbit cx cy score).2 score rem = score + rem := by
  intro rem
  induction rem with
  | zero => intro score _; simp [escapeGo]
  | succ n ih =>
    intro score h
    have h0 : (orbit cx cy score).1 * (orbit cx cy score).1 +
        (orbit cx cy score).2 * (orbit cx cy score).2 < 4 := by
      have := h 0 (by omega)
      simpa [orbitNormSq] using this
    simp only [escapeGo, if_pos h0]
    have hx : (orbit cx cy score).1 * (orbit cx cy score).1 -
        (orbit cx cy score).2 * (orbit cx cy score).2 + cx = (orbit cx cy (score + 1)).1 := by
      rw [orbit_succ]
    have hy : 2 * (orbit cx cy score).1 * (orbit cx cy score).2 + cy =
        (orbit cx cy (score + 1)).2 := by
      rw [orbit_succ]
    rw [hx, hy, ih (score + 1) (by
      intro i hi
      have h2 := h (i + 1) (by omega)
      have h3 : score + (i + 1) = score + 1 + i := by omega
      rwa [h3] at h2)]
    omega

theorem escapeGo_first_esc (cx cy : ℚ) :
    ∀ (rem score i : Nat), i < rem →
      (∀ j, j < i → orbitNormSq cx cy (score + j) < 4) →
      4 ≤ orbitNormSq cx cy (score + i) →
      escapeGo cx cy (orbit cx cy score).1 (orbit cx cy score).2 score rem = score + i := by
  intro rem
  induction rem with
  | zero => intro score i hi; omega
  | succ n ih =>
    intro score i hi hlt hesc
    cases i with
    | zero =>
      have h4 : 4 ≤ orbitNormSq cx cy score := by simpa using hesc
      have h0 : ¬ ((orbit cx cy score).1 * (orbit cx cy score).1 +
          (orbit cx cy score).2 * (orbit cx cy score).2 < 4) := by
        simp only [orbitNormSq] at h4
        exact not_lt.mpr h4
      simp only [escapeGo, if_neg h0]
      omega
    | succ i' =>
      have h0 : (orbit cx cy score).1 * (orbit cx cy score).1 +
          (orbit cx cy score).2 * (orbit cx cy score).2 < 4 := by
        have := hlt 0 (by omega)
        simpa [orbitNormSq] using this
      simp only [escapeGo, if_pos h0]
      have hx : (orbit cx cy score).1 * (orbit cx cy score).1 -
          (orbit cx cy score).2 * (orbit cx cy score).2 + cx = (orbit cx cy (score + 1)).1 := by
        rw [orbit_succ]
      have hy : 2 * (orbit cx cy score).1 * (orbit cx cy score).2 + cy =
          (orbit cx cy (score + 1)).2 := by
        rw [orbit_succ]
      rw [hx, hy, ih (score + 1) i' (by omega)
        (by
          intro j hj
          have h2 := hlt (j + 1) (by omega)
          have h3 : score + (j + 1) = score + 1 + j := by omega
          rwa [h3] at h2)
        (by
          have h3 : score + (i' + 1) = score + 1 + i' := by omega
          rwa [h3] at hesc)]
      omega

theorem escapeScore_of_no_esc (v : Viewport) (x y : ℚ) (hc : cardioidTest x y = false)
    (h : ∀ k, k < v.maxIterations → orbitNormSq x y k < 4) :
    escapeScore v x y = v.maxIterations := by
  have h0 := escapeGo_all_lt x y v.maxIterations 0 (by intro i hi; simpa using h i hi)
  simp only [orbit_zero] at h0
  simpa [escapeScore, hc] using h0

theorem escapeScore_of_esc (v : Viewport) (x y : ℚ) (hc : cardioidTest x y = false)
    (k : Nat) (hkM : k ≤ v.maxIterations)
    (hj : ∀ j, j < k → orbitNormSq x y j < 4) (hk : 4 ≤ orbitNormSq x y k) :
    escapeScore v x y = k := by
  rcases Nat.lt_or_ge k v.maxIterations with hlt | hge
  · have h0 := escapeGo_first_esc x y v.maxIterations 0 k hlt
      (by intro j hjk; simpa using hj j hjk) (by simpa using hk)
    simp only [orbit_zero] at h0
    simpa [escapeScore, hc] using h0
  · have hkeq : k = v.maxIterations := by omega
    subst hkeq
    exact escapeScore_of_no_esc v x y hc hj

theorem escapeGo_ge (cx cy : ℚ) :
    ∀ (rem score : Nat) (x y : ℚ), score ≤ escapeGo cx cy x y score rem := by
  intro rem
  induction rem with
  | zero => intro score x y; simp [escapeGo]
  | succ n ih =>
    intro score x y
    simp only [escapeGo]
    split
    · have := ih (score + 1) (x * x - y * y + cx) (2 * x * y + cy)
      omega
    · omega

theorem escapeScore_pos (v : Viewport) (x y : ℚ) (hM : 1 ≤ v.maxIterations) :
    1 ≤ escapeScore v x y := by
  unfold escapeScore
  split
  · exact hM
  · rcases hM0 : v.maxIterations with _ | M
    · omega
    · have h0 : (0 : ℚ) * 0 + 0 * 0 < 4 := by norm_num
      simp only [escapeGo, if_pos h0]
      have := escapeGo_ge x y M (0 + 1) (0 * 0 - 0 * 0 + x) (2 * 0 * 0 + y)
      omega

theorem escapeScore_lt_cases (v : Viewport) (x y : ℚ)
    (h : escapeScore v x y < v.maxIterations) :
    cardioidTest x y = false ∧ 4 ≤ orbitNormSq x y (escapeScore v x y) ∧
      ∀ j, j < escapeScore v x y → orbitNormSq x y j < 4 := by
  have hc : cardioidTest x y = false := by
    by_contra hct
    have hct' : cardioidTest x y = true := by
      cases hcc : cardioidTest x y
      · exact absurd hcc hct
      · rfl
    simp [escapeScore, hct'] at h
  refine ⟨hc, ?_⟩
  by_cases hall : ∀ j, j < v.maxIterations → orbitNormSq x y j < 4
  · have := escapeScore_of_no_esc v x y hc hall
    omega
  · push_neg at hall
    obtain ⟨j0, hj0M, hj0⟩ := hall
    have hP : ∃ k, 4 ≤ orbitNormSq x y k := ⟨j0, hj0⟩
    set k0 := Nat.find hP with hk0def
    have hk0 : 4 ≤ orbitNormSq x y k0 := Nat.find_spec hP
    have hmin : ∀ m, m < k0 → orbitNormSq x y m < 4 := by
      intro m hm
      exact not_le.mp (Nat.find_min hP hm)
    have hscore : escapeScore v x y = k0 := by
      apply escapeScore_of_esc v x y hc k0 _ hmin hk0
      have hk0le : k0 ≤ j0 := Nat.find_le hj0
      omega
    rw [hscore]
    exact ⟨hk0, hmin⟩

theorem escapeScore_eq_max_iff (v : Viewport) (x y : ℚ) :
    escapeScore v x y = v.maxIterations ↔
      (cardioidTest x y = true ∨ ∀ k, k < v.maxIterations → orbitNormSq x y k < 4) := by
  constructor
  · intro h
    cases hc : cardioidTest x y
    · right
      intro k hk
      by_contra hk4
      have hP : ∃ m, 4 ≤ orbitNormSq x y m := ⟨k, not_lt.mp hk4⟩
      have hk0 : 4 ≤ orbitNormSq x y (Nat.find hP) := Nat.find_spec hP
      have hmin : ∀ m, m < Nat.find hP → orbitNormSq x y m < 4 := by
        intro m hm
        exact not_le.mp (Nat.find_min hP hm)
      have hle : Nat.find hP ≤ k := Nat.find_le (not_lt.mp hk4)
      have := escapeScore_of_esc v x y hc (Nat.find hP) (by omega) hmin hk0
      omega
    · left; rfl
  · intro h
    rcases h with hc | hall
    · simp [escapeScore, hc]
    · cases hc : cardioidTest x y
      · exact escapeScore_of_no_esc v x y hc hall
      · simp [escapeScore, hc]

/-! ### Characterization of the naive rectangle generator -/

theorem rectColGo_eval (v : Viewport) (row : Nat) :
    ∀ (n col : Nat) (g : Grid) (r c : Nat),
      rectColGo v row col n g r c =
        if r = row ∧ col ≤ c ∧ c < col + n then (escapeScoreAt v r c : Int) else g r c := by
  intro n
  induction n with
  | zero =>
    intro col g r c
    simp only [rectColGo]
    rw [if_neg (by rintro ⟨h1, h2, h3⟩; omega)]
  | succ n ih =>
    intro col g r c
    simp only [rectColGo]
    rw [ih]
    by_cases h1 : r = row ∧ col + 1 ≤ c ∧ c < col + 1 + n
    · rw [if_pos h1, if_pos ⟨h1.1, by omega, by omega⟩]
    · rw [if_neg h1]
      by_cases h2 : r = row ∧ c = col
      · have hr := h2.1
        have hcc := h2.2
        subst hr
        subst hcc
        rw [generateSetPixel_self, if_pos ⟨rfl, by omega, by omega⟩]
      · have hcond : ¬(r = row ∧ col ≤ c ∧ c < col + (n + 1)) := by
          rintro ⟨ha, hb, hc2⟩
          rcases Nat.eq_or_lt_of_le hb with hec | hlt
          · exact h2 ⟨ha, hec.symm⟩
          · exact h1 ⟨ha, by omega, by omega⟩
        rw [generateSetPixel_ne v g row col r c h2, if_neg hcond]

theorem rectRowGo_eval (v : Viewport) (startX width : Nat) :
    ∀ (m row : Nat) (g : Grid) (r c : Nat),
      rectRowGo v startX width row m g r c =
        if row ≤ r ∧ r < row + m ∧ startX ≤ c ∧ c < startX + width then
          (escapeScoreAt v r c : Int)
        else g r c := by
  intro m
  induction m with
  | zero =>
    intro row g r c
    simp only [rectRowGo]
    rw [if_neg (by rintro ⟨h1, h2, h3⟩; omega)]
  | succ m ih =>
    intro row g r c
    simp only [rectRowGo]
    rw [ih]
    by_cases h1 : row + 1 ≤ r ∧ r < row + 1 + m ∧ startX ≤ c ∧ c < startX + width
    · rw [if_pos h1, if_pos ⟨by omega, by omega, h1.2.2⟩]
    · rw [if_neg h1, rectColGo_eval]
      by_cases h2 : r = row ∧ startX ≤ c ∧ c < startX + width
      · rw [if_pos h2, if_pos ⟨by omega, by omega, h2.2⟩]
      · have hcond : ¬(row ≤ r ∧ r < row + (m + 1) ∧ startX ≤ c ∧ c < startX + width) := by
          rintro ⟨ha, hb, hc2, hd⟩
          rcases Nat.eq_or_lt_of_le ha with hec | hlt
          · exact h2 ⟨hec.symm, hc2, hd⟩
          · exact h1 ⟨by omega, by omega, hc2, hd⟩
        rw [if_neg h2, if_neg hcond]

theorem generateRectangle_eval (v : Viewport) (startX startY width height : Nat) (g : Grid)
    (r c : Nat) :
    generateRectangle v startX startY width height g r c =
      if startY ≤ r ∧ r < startY + height ∧ startX ≤ c ∧ c < startX + width then
        (escapeScoreAt v r c : Int)
      else g r c := by
  exact rectRowGo_eval v startX width height startY g r c

/-! ### Characterization of the border-line loops -/

theorem blockRowGo_cases (v : Viewport) (row : Nat) :
    ∀ (n col : Nat) (g : Grid) (r c : Nat),
      (blockRowGo v row col n g).2 r c = g r c ∨
        (r = row ∧ col ≤ c ∧ c < col + n ∧
          (blockRowGo v row col n g).2 r c = (escapeScoreAt v r c : Int)) := by
  intro n
  induction n with
  | zero => intro col g r c; left; rfl
  | succ n ih =>
    intro col g r c
    simp only [blockRowGo]
    by_cases hstop : 0 < col ∧
        generateSetPixel v g row col row col ≠ generateSetPixel v g row col row (col - 1)
    · rw [if_pos hstop]
      by_cases h2 : r = row ∧ c = col
      · right
        refine ⟨h2.1, by omega, by omega, ?_⟩
        rw [h2.1, h2.2]
        exact generateSetPixel_self v g row col
      · left
        exact generateSetPixel_ne v g row col r c h2
    · rw [if_neg hstop]
      rcases ih (col + 1) (generateSetPixel v g row col) r c with h | ⟨ha, hb, hc2, hd⟩
      · by_cases h2 : r = row ∧ c = col
        · right
          refine ⟨h2.1, by omega, by omega, ?_⟩
          rw [h, h2.1, h2.2]
          exact generateSetPixel_self v g row col
        · left
          rw [h]
          exact generateSetPixel_ne v g row col r c h2
      · right
        exact ⟨ha, by omega, by omega, hd⟩

theorem blockRowGo_frame (v : Viewport) (row : Nat) (n col : Nat) (g : Grid) (r c : Nat)
    (h : ¬(r = row ∧ col ≤ c ∧ c < col + n)) :
    (blockRowGo v row col n g).2 r c = g r c := by
  rcases blockRowGo_cases v row n col g r c with h1 | ⟨ha, hb, hc2, _⟩
  · exact h1
  · exact absurd ⟨ha, hb, hc2⟩ h

theorem blockRowGo_true_written (v : Viewport) (row : Nat) :
    ∀ (n col : Nat) (g : Grid), (blockRowGo v row col n g).1 = true →
      ∀ c, col ≤ c → c < col + n →
        (blockRowGo v row col n g).2 row c = (escapeScoreAt v row c : Int) := by
  intro n
  induction n with
  | zero => intro col g _ c h1 h2; omega
  | succ n ih =>
    intro col g htrue c h1 h2
    simp only [blockRowGo] at htrue ⊢
    by_cases hstop : 0 < col ∧
        generateSetPixel v g row col row col ≠ generateSetPixel v g row col row (col - 1)
    · rw [if_pos hstop] at htrue
      exact absurd htrue (by simp)
    · rw [if_neg hstop] at htrue ⊢
      rcases Nat.eq_or_lt_of_le h1 with hec | hlt
      · have hframe : ¬(row = row ∧ col + 1 ≤ c ∧ c < col + 1 + n) := by
          rintro ⟨_, hb, _⟩
          omega
        rw [blockRowGo_frame v row n (col + 1) _ row c hframe, ← hec]
        exact generateSetPixel_self v g row col
      · exact ih (col + 1) _ htrue c (by omega) (by omega)

theorem blockRowGo_true_cmp (v : Viewport) (row : Nat) :
    ∀ (n col : Nat) (g : Grid), (blockRowGo v row col n g).1 = true →
      ∀ c, col ≤ c → c < col + n → 0 < c →
        (if c = col then g row (c - 1) else (escapeScoreAt v row (c - 1) : Int)) =
          (escapeScoreAt v row c : Int) := by
  intro n
  induction n with
  | zero => intro col g _ c h1 h2; omega
  | succ n ih =>
    intro col g htrue c h1 h2 hpos
    simp only [blockRowGo] at htrue
    by_cases hstop : 0 < col ∧
        generateSetPixel v g row col row col ≠ generateSetPixel v g row col row (col - 1)
    · rw [if_pos hstop] at htrue
      exact absurd htrue (by simp)
    · rw [if_neg hstop] at htrue
      rcases Nat.eq_or_lt_of_le h1 with hec | hlt
      · rw [← hec] at hpos ⊢
        rw [if_pos rfl]
        have heq : generateSetPixel v g row col row col =
            generateSetPixel v g row col row (col - 1) := by
          by_contra hne
          exact hstop ⟨hpos, hne⟩
        rw [generateSetPixel_self] at heq
        have hc1 : ¬(row = row ∧ col - 1 = col) := by
          rintro ⟨_, hh⟩
          omega
        rw [generateSetPixel_ne v g row col row (col - 1) hc1] at heq
        exact heq.symm
      · have hres := ih (col + 1) _ htrue c (by omega) (by omega) hpos
        rw [if_neg (by omega)]
        by_cases hc1 : c = col + 1
        · rw [if_pos hc1] at hres
          have : c - 1 = col := by omega
          rw [this] at hres ⊢
          rw [generateSetPixel_self] at hres
          exact hres
        · rw [if_neg hc1] at hres
          exact hres

theorem blockColGo_cases (v : Viewport) (col : Nat) :
    ∀ (n row : Nat) (g : Grid) (r c : Nat),
      (blockColGo v col row n g).2 r c = g r c ∨
        (c = col ∧ row ≤ r ∧ r < row + n ∧
          (blockColGo v col row n g).2 r c = (escapeScoreAt v r c : Int)) := by
  intro n
  induction n with
  | zero => intro row g r c; left; rfl
  | succ n ih =>
    intro row g r c
    simp only [blockColGo]
    by_cases hstop : 0 < row ∧
        generateSetPixel v g row col row col ≠ generateSetPixel v g row col (row - 1) col
    · rw [if_pos hstop]
      by_cases h2 : r = row ∧ c = col
      · right
        refine ⟨h2.2, by omega, by omega, ?_⟩
        rw [h2.1, h2.2]
        exact generateSetPixel_self v g row col
      · left
        exact generateSetPixel_ne v g row col r c h2
    · rw [if_neg hstop]
      rcases ih (row + 1) (generateSetPixel v g row col) r c with h | ⟨ha, hb, hc2, hd⟩
      · by_cases h2 : r = row ∧ c = col
        · right
          refine ⟨h2.2, by omega, by omega, ?_⟩
          rw [h, h2.1, h2.2]
          exact generateSetPixel_self v g row col
        · left
          rw [h]
          exact generateSetPixel_ne v g row col r c h2
      · right
        exact ⟨ha, by omega, by omega, hd⟩

theorem blockColGo_frame (v : Viewport) (col : Nat) (n row : Nat) (g : Grid) (r c : Nat)
    (h : ¬(c = col ∧ row ≤ r ∧ r < row + n)) :
    (blockColGo v col row n g).2 r c = g r c := by
  rcases blockColGo_cases v col n row g r c with h1 | ⟨ha, hb, hc2, _⟩
  · exact h1
  · exact absurd ⟨ha, hb, hc2⟩ h

theorem blockColGo_true_written (v : Viewport) (col : Nat) :
    ∀ (n row : Nat) (g : Grid), (blockColGo v col row n g).1 = true →
      ∀ r, row ≤ r → r < row + n →
        (blockColGo v col row n g).2 r col = (escapeScoreAt v r col : Int) := by
  intro n
  induction n with
  | zero => intro row g _ r h1 h2; omega
  | succ n ih =>
    intro row g htrue r h1 h2
    simp only [blockColGo] at htrue ⊢
    by_cases hstop : 0 < row ∧
        generateSetPixel v g row col row col ≠ generateSetPixel v g row col (row - 1) col
    · rw [if_pos hstop] at htrue
      exact absurd htrue (by simp)
    · rw [if_neg hstop] at htrue ⊢
      rcases Nat.eq_or_lt_of_le h1 with hec | hlt
      · have hframe : ¬(col = col ∧ row + 1 ≤ r ∧ r < row + 1 + n) := by
          rintro ⟨_, hb, _⟩
          omega
        rw [blockColGo_frame v col n (row + 1) _ r col hframe, ← hec]
        exact generateSetPixel_self v g row col
      · exact ih (row + 1) _ htrue r (by omega) (by omega)

theorem blockColGo_true_cmp (v : Viewport) (col : Nat) :
    ∀ (n row : Nat) (g : Grid), (blockColGo v col row n g).1 = true →
      ∀ r, row ≤ r → r < row + n → 0 < r →
        (if r = row then g (r - 1) col else (escapeScoreAt v (r - 1) col : Int)) =
          (escapeScoreAt v r col : Int) := by
  intro n
  induction n with
  | zero => intro row g _ r h1 h2; omega
  | succ n ih =>
    intro row g htrue r h1 h2 hpos
    simp only [blockColGo] at htrue
    by_cases hstop : 0 < row ∧
        generateSetPixel v g row col row col ≠ generateSetPixel v g row col (row - 1) col
    · rw [if_pos hstop] at htrue
      exact absurd htrue (by simp)
    · rw [if_neg hstop] at htrue
      rcases Nat.eq_or_lt_of_le h1 with hec | hlt
      · rw [← hec] at hpos ⊢
        rw [if_pos rfl]
        have heq : generateSetPixel v g row col row col =
            generateSetPixel v g row col (row - 1) col := by
          by_contra hne
          exact hstop ⟨hpos, hne⟩
        rw [generateSetPixel_self] at heq
        have hc1 : ¬(row - 1 = row ∧ col = col) := by
          rintro ⟨hh, _⟩
          omega
        rw [generateSetPixel_ne v g row col (row - 1) col hc1] at heq
        exact heq.symm
      · have hres := ih (row + 1) _ htrue r (by omega) (by omega) hpos
        rw [if_neg (by omega)]
        by_cases hc1 : r = row + 1
        · rw [if_pos hc1] at hres
          have hr1 : r - 1 = row := by omega
          rw [hr1] at hres ⊢
          rw [generateSetPixel_self] at hres
          exact hres
        · rw [if_neg hc1] at hres
          exact hres

/-! ### Characterization of the flood fill -/

theorem fillColGo_eval (val : Int) (row : Nat) :
    ∀ (n col : Nat) (g : Grid) (r c : Nat),
      fillColGo val row col n g r c =
        if r = row ∧ col ≤ c ∧ c < col + n then val else g r c := by
  intro n
  induction n with
  | zero =>
    intro col g r c
    simp only [fillColGo]
    rw [if_neg (by rintro ⟨h1, h2, h3⟩; omega)]
  | succ n ih =>
    intro col g r c
    simp only [fillColGo]
    rw [ih]
    by_cases h1 : r = row ∧ col + 1 ≤ c ∧ c < col + 1 + n
    · rw [if_pos h1, if_pos ⟨h1.1, by omega, by omega⟩]
    · rw [if_neg h1]
      by_cases h2 : r = row ∧ c = col
      · rw [h2.1, h2.2, setPix_self, if_pos ⟨rfl, by omega, by omega⟩]
      · have hcond : ¬(r = row ∧ col ≤ c ∧ c < col + (n + 1)) := by
          rintro ⟨ha, hb, hc2⟩
          rcases Nat.eq_or_lt_of_le hb with hec | hlt
          · exact h2 ⟨ha, hec.symm⟩
          · exact h1 ⟨ha, by omega, by omega⟩
        rw [setPix_ne g row col val r c h2, if_neg hcond]

theorem fillRowGo_eval (val : Int) (startCol width : Nat) :
    ∀ (m row : Nat) (g : Grid) (r c : Nat),
      fillRowGo val startCol width row m g r c =
        if row ≤ r ∧ r < row + m ∧ startCol ≤ c ∧ c < startCol + width then val
        else g r c := by
  intro m
  induction m with
  | zero =>
    intro row g r c
    simp only [fillRowGo]
    rw [if_neg (by rintro ⟨h1, h2, h3⟩; omega)]
  | succ m ih =>
    intro row g r c
    simp only [fillRowGo]
    rw [ih]
    by_cases h1 : row + 1 ≤ r ∧ r < row + 1 + m ∧ startCol ≤ c ∧ c < startCol + width
    · rw [if_pos h1, if_pos ⟨by omega, by omega, h1.2.2⟩]
    · rw [if_neg h1, fillColGo_eval]
      by_cases h2 : r = row ∧ startCol ≤ c ∧ c < startCol + width
      · rw [if_pos h2, if_pos ⟨by omega, by omega, h2.2⟩]
      · have hcond : ¬(row ≤ r ∧ r < row + (m + 1) ∧ startCol ≤ c ∧ c < startCol + width) := by
          rintro ⟨ha, hb, hc2, hd⟩
          rcases Nat.eq_or_lt_of_le ha with hec | hlt
          · exact h2 ⟨hec.symm, hc2, hd⟩
          · exact h1 ⟨by omega, by omega, hc2, hd⟩
        rw [if_neg h2, if_neg hcond]

/-! ### Characterization of the border-evaluation step -/

theorem generateBlockRow_frame (v : Viewport) (g : Grid) (row colStart width r c : Nat)
    (h : ¬(r = row ∧ colStart ≤ c ∧ c < colStart + width)) :
    (generateBlockRow v g row colStart width).2 r c = g r c :=
  blockRowGo_frame v row width colStart g r c h

theorem generateBlockCol_frame (v : Viewport) (g : Grid) (col rowStart height r c : Nat)
    (h : ¬(c = col ∧ rowStart ≤ r ∧ r < rowStart + height)) :
    (generateBlockCol v g col rowStart height).2 r c = g r c :=
  blockColGo_frame v col height rowStart g r c h

theorem generateBlockRow_true_written (v : Viewport) (g : Grid) (row colStart width : Nat)
    (htrue : (generateBlockRow v g row colStart width).1 = true) (c : Nat)
    (h1 : colStart ≤ c) (h2 : c < colStart + width) :
    (generateBlockRow v g row colStart width).2 row c = (escapeScoreAt v row c : Int) :=
  blockRowGo_true_written v row width colStart g htrue c h1 h2

theorem generateBlockCol_true_written (v : Viewport) (g : Grid) (col rowStart height : Nat)
    (htrue : (generateBlockCol v g col rowStart height).1 = true) (r : Nat)
    (h1 : rowStart ≤ r) (h2 : r < rowStart + height) :
    (generateBlockCol v g col rowStart height).2 r col = (escapeScoreAt v r col : Int) :=
  blockColGo_true_written v col height rowStart g htrue r h1 h2

theorem generateBlockRow_true_cmp (v : Viewport) (g : Grid) (row colStart width : Nat)
    (htrue : (generateBlockRow v g row colStart width).1 = true) (c : Nat)
    (h1 : colStart ≤ c) (h2 : c < colStart + width) (h3 : 0 < c) :
    (if c = colStart then g row (c - 1) else (escapeScoreAt v row (c - 1) : Int)) =
      (escapeScoreAt v row c : Int) :=
  blockRowGo_true_cmp v row width colStart g htrue c h1 h2 h3

theorem generateBlockCol_true_cmp (v : Viewport) (g : Grid) (col rowStart height : Nat)
    (htrue : (generateBlockCol v g col rowStart height).1 = true) (r : Nat)
    (h1 : rowStart ≤ r) (h2 : r < rowStart + height) (h3 : 0 < r) :
    (if r = rowStart then g (r - 1) col else (escapeScoreAt v (r - 1) col : Int)) =
      (escapeScoreAt v r col : Int) :=
  blockColGo_true_cmp v col height rowStart g htrue r h1 h2 h3

theorem borderEval_dest (v : Viewport) (sx sy w h : Nat) (g : Grid)
    (htrue : (borderEval v sx sy w h g).1 = true) :
    ∃ g1 g2 g3,
      generateBlockRow v g sy sx w = (true, g1) ∧
      generateBlockRow v g1 (sy + h - 1) sx w = (true, g2) ∧
      generateBlockCol v g2 sx (sy + 1) (h - 2) = (true, g3) ∧
      (generateBlockCol v g3 (sx + w - 1) (sy + 1) (h - 2)).1 = true ∧
      (borderEval v sx sy w h g).2 = (generateBlockCol v g3 (sx + w - 1) (sy + 1) (h - 2)).2 := by
  unfold borderEval at htrue ⊢
  rcases hst1 : generateBlockRow v g sy sx w with ⟨b1, g1⟩
  simp only [hst1] at htrue ⊢
  cases b1
  · simp at htrue
  · rcases hst2 : generateBlockRow v g1 (sy + h - 1) sx w with ⟨b2, g2⟩
    simp only [hst2] at htrue ⊢
    cases b2
    · simp at htrue
    · rcases hst3 : generateBlockCol v g2 sx (sy + 1) (h - 2) with ⟨b3, g3⟩
      simp only [hst3] at htrue ⊢
      cases b3
      · simp at htrue
      · simp only at htrue ⊢
        exact ⟨g1, g2, g3, rfl, hst2, hst3, htrue, rfl⟩

theorem borderEval_frame (v : Viewport) (sx sy w h : Nat) (g : Grid) (r c : Nat)
    (hw : 3 ≤ w) (hh : 3 ≤ h)
    (hout : r < sy ∨ sy + h ≤ r ∨ c < sx ∨ sx + w ≤ c) :
    (borderEval v sx sy w h g).2 r c = g r c := by
  unfold borderEval
  rcases hst1 : generateBlockRow v g sy sx w with ⟨b1, g1⟩
  have hg1 : g1 r c = g r c := by
    have f1 : (generateBlockRow v g sy sx w).2 r c = g r c :=
      generateBlockRow_frame v g sy sx w r c (by rintro ⟨ha, hb, hc2⟩; omega)
    rw [hst1] at f1
    exact f1
  cases b1
  · exact hg1
  · rcases hst2 : generateBlockRow v g1 (sy + h - 1) sx w with ⟨b2, g2⟩
    have hg2 : g2 r c = g r c := by
      have f2 : (generateBlockRow v g1 (sy + h - 1) sx w).2 r c = g1 r c :=
        generateBlockRow_frame v g1 (sy + h - 1) sx w r c (by rintro ⟨ha, hb, hc2⟩; omega)
      rw [hst2] at f2
      exact f2.trans hg1
    simp only [hst2]
    cases b2
    · exact hg2
    · rcases hst3 : generateBlockCol v g2 sx (sy + 1) (h - 2) with ⟨b3, g3⟩
      have hg3 : g3 r c = g r c := by
        have f3 : (generateBlockCol v g2 sx (sy + 1) (h - 2)).2 r c = g2 r c :=
          generateBlockCol_frame v g2 sx (sy + 1) (h - 2) r c
            (by rintro ⟨ha, hb, hc2⟩; omega)
        rw [hst3] at f3
        exact f3.trans hg2
      simp only [hst3]
      cases b3
      · exact hg3
      · have f4 : (generateBlockCol v g3 (sx + w - 1) (sy + 1) (h - 2)).2 r c = g3 r c :=
          generateBlockCol_frame v g3 (sx + w - 1) (sy + 1) (h - 2) r c
            (by rintro ⟨ha, hb, hc2⟩; omega)
        exact f4.trans hg3

theorem borderEval_true_border (v : Viewport) (sx sy w h : Nat) (g : Grid)
    (hw : 3 ≤ w) (hh : 3 ≤ h)
    (htrue : (borderEval v sx sy w h g).1 = true) :
    (∀ c, sx ≤ c → c < sx + w →
      (borderEval v sx sy w h g).2 sy c = (escapeScoreAt v sy c : Int) ∧
      (borderEval v sx sy w h g).2 (sy + h - 1) c = (escapeScoreAt v (sy + h - 1) c : Int)) ∧
    (∀ r, sy + 1 ≤ r → r < sy + h - 1 →
      (borderEval v sx sy w h g).2 r sx = (escapeScoreAt v r sx : Int) ∧
      (borderEval v sx sy w h g).2 r (sx + w - 1) = (escapeScoreAt v r (sx + w - 1) : Int)) := by
  obtain ⟨g1, g2, g3, hst1, hst2, hst3, hb4, hres⟩ := borderEval_dest v sx sy w h g htrue
  have hw1 : ∀ c, sx ≤ c → c < sx + w →
      g1 sy c = (escapeScoreAt v sy c : Int) := by
    intro c h1 h2
    have := generateBlockRow_true_written v g sy sx w (by rw [hst1]) c h1 h2
    rw [hst1] at this
    exact this
  have hw2 : ∀ c, sx ≤ c → c < sx + w →
      g2 (sy + h - 1) c = (escapeScoreAt v (sy + h - 1) c : Int) := by
    intro c h1 h2
    have := generateBlockRow_true_written v g1 (sy + h - 1) sx w (by rw [hst2]) c h1 h2
    rw [hst2] at this
    exact this
  have hw2top : ∀ c, sx ≤ c → c < sx + w → g2 sy c = g1 sy c := by
    intro c h1 h2
    have := generateBlockRow_frame v g1 (sy + h - 1) sx w sy c (by rintro ⟨ha, _, _⟩; omega)
    rw [hst2] at this
    exact this
  have hw3frame : ∀ r c2, c2 ≠ sx → g3 r c2 = g2 r c2 := by
    intro r c2 hne
    have := generateBlockCol_frame v g2 sx (sy + 1) (h - 2) r c2
      (by rintro ⟨ha, _, _⟩; exact hne ha)
    rw [hst3] at this
    exact this
  have hw3frame2 : ∀ r c2, r < sy + 1 ∨ sy + h - 1 ≤ r → g3 r c2 = g2 r c2 := by
    intro r c2 hr
    have := generateBlockCol_frame v g2 sx (sy + 1) (h - 2) r c2
      (by rintro ⟨ha, hb, hc2⟩; omega)
    rw [hst3] at this
    exact this
  have hw3 : ∀ r, sy + 1 ≤ r → r < sy + h - 1 →
      g3 r sx = (escapeScoreAt v r sx : Int) := by
    intro r h1 h2
    have := generateBlockCol_true_written v g2 sx (sy + 1) (h - 2) (by rw [hst3]) r h1 (by omega)
    rw [hst3] at this
    exact this
  have hw4frame : ∀ r c2, c2 ≠ sx + w - 1 →
      (generateBlockCol v g3 (sx + w - 1) (sy + 1) (h - 2)).2 r c2 = g3 r c2 := by
    intro r c2 hne
    exact generateBlockCol_frame v g3 (sx + w - 1) (sy + 1) (h - 2) r c2
      (by rintro ⟨ha, _, _⟩; exact hne ha)
  have hw4frame2 : ∀ r c2, r < sy + 1 ∨ sy + h - 1 ≤ r →
      (generateBlockCol v g3 (sx + w - 1) (sy + 1) (h - 2)).2 r c2 = g3 r c2 := by
    intro r c2 hr
    exact generateBlockCol_frame v g3 (sx + w - 1) (sy + 1) (h - 2) r c2
      (by rintro ⟨ha, hb, hc2⟩; omega)
  have hw4 : ∀ r, sy + 1 ≤ r → r < sy + h - 1 →
      (generateBlockCol v g3 (sx + w - 1) (sy + 1) (h - 2)).2 r (sx + w - 1) =
        (escapeScoreAt v r (sx + w - 1) : Int) := by
    intro r h1 h2
    exact generateBlockCol_true_written v g3 (sx + w - 1) (sy + 1) (h - 2) hb4 r h1 (by omega)
  constructor
  · intro c h1 h2
    constructor
    · rw [hres, hw4frame2 sy c (by omega), hw3frame2 sy c (by omega), hw2top c h1 h2]
      exact hw1 c h1 h2
    · rw [hres, hw4frame2 (sy + h - 1) c (by omega), hw3frame2 (sy + h - 1) c (by omega)]
      exact hw2 c h1 h2
  · intro r h1 h2
    constructor
    · rw [hres, hw4frame r sx (by omega)]
      exact hw3 r h1 h2
    · rw [hres]
      exact hw4 r h1 h2

theorem borderEval_true_uniform (v : Viewport) (sx sy w h : Nat) (g : Grid)
    (hw : 3 ≤ w) (hh : 3 ≤ h)
    (htrue : (borderEval v sx sy w h g).1 = true) :
    (∀ c, sx < c → c < sx + w →
      escapeScoreAt v sy c = escapeScoreAt v sy (c - 1) ∧
      escapeScoreAt v (sy + h - 1) c = escapeScoreAt v (sy + h - 1) (c - 1)) ∧
    (∀ r, sy + 1 < r → r < sy + h - 1 →
      escapeScoreAt v r sx = escapeScoreAt v (r - 1) sx ∧
      escapeScoreAt v r (sx + w - 1) = escapeScoreAt v (r - 1) (sx + w - 1)) := by
  obtain ⟨g1, g2, g3, hst1, hst2, hst3, hb4, _⟩ := borderEval_dest v sx sy w h g htrue
  constructor
  · intro c hc1 hc2
    constructor
    · have := generateBlockRow_true_cmp v g sy sx w (by rw [hst1]) c (by omega) (by omega)
        (by omega)
      rw [if_neg (by omega)] at this
      exact_mod_cast this.symm
    · have := generateBlockRow_true_cmp v g1 (sy + h - 1) sx w (by rw [hst2]) c (by omega)
        (by omega) (by omega)
      rw [if_neg (by omega)] at this
      exact_mod_cast this.symm
  · intro r hr1 hr2
    constructor
    · have := generateBlockCol_true_cmp v g2 sx (sy + 1) (h - 2) (by rw [hst3]) r (by omega)
        (by omega) (by omega)
      rw [if_neg (by omega)] at this
      exact_mod_cast this.symm
    · have := generateBlockCol_true_cmp v g3 (sx + w - 1) (sy + 1) (h - 2) hb4 r (by omega)
        (by omega) (by omega)
      rw [if_neg (by omega)] at this
      exact_mod_cast this.symm

/-! ### Determinism of the border loops: the result depends on the
initial grid only through the single cell just before the line. -/

theorem blockRowGo_det (v : Viewport) (row : Nat) :
    ∀ (n col : Nat) (g g2 : Grid),
      (0 < col → g row (col - 1) = g2 row (col - 1)) →
      (blockRowGo v row col n g).1 = (blockRowGo v row col n g2).1 ∧
      ∀ r c, (blockRowGo v row col n g).2 r c = (blockRowGo v row col n g2).2 r c ∨
        ((blockRowGo v row col n g).2 r c = g r c ∧
          (blockRowGo v row col n g2).2 r c = g2 r c) := by
  intro n
  induction n with
  | zero => intro col g g2 _; exact ⟨rfl, fun r c => Or.inr ⟨rfl, rfl⟩⟩
  | succ n ih =>
    intro col g g2 hpre
    have hval : 0 < col →
        generateSetPixel v g row col row (col - 1) =
          generateSetPixel v g2 row col row (col - 1) := by
      intro hp
      rw [generateSetPixel_ne v g row col row (col - 1) (by rintro ⟨_, hh⟩; omega),
          generateSetPixel_ne v g2 row col row (col - 1) (by rintro ⟨_, hh⟩; omega)]
      exact hpre hp
    have hcnd : (0 < col ∧ generateSetPixel v g row col row col ≠
          generateSetPixel v g row col row (col - 1)) ↔
        (0 < col ∧ generateSetPixel v g2 row col row col ≠
          generateSetPixel v g2 row col row (col - 1)) := by
      constructor
      · rintro ⟨hp, hne⟩
        refine ⟨hp, ?_⟩
        rw [generateSetPixel_self, ← hval hp]
        rw [generateSetPixel_self] at hne
        exact hne
      · rintro ⟨hp, hne⟩
        refine ⟨hp, ?_⟩
        rw [generateSetPixel_self, hval hp]
        rw [generateSetPixel_self] at hne
        exact hne
    simp only [blockRowGo]
    by_cases hstop : 0 < col ∧ generateSetPixel v g row col row col ≠
        generateSetPixel v g row col row (col - 1)
    · rw [if_pos hstop, if_pos (hcnd.mp hstop)]
      refine ⟨rfl, fun r c => ?_⟩
      by_cases h2 : r = row ∧ c = col
      · left
        rw [h2.1, h2.2]
        show generateSetPixel v g row col row col = generateSetPixel v g2 row col row col
        rw [generateSetPixel_self, generateSetPixel_self]
      · right
        exact ⟨generateSetPixel_ne v g row col r c h2, generateSetPixel_ne v g2 row col r c h2⟩
    · rw [if_neg hstop, if_neg (fun hc => hstop (hcnd.mpr hc))]
      have hpre2 : 0 < col + 1 →
          generateSetPixel v g row col row (col + 1 - 1) =
            generateSetPixel v g2 row col row (col + 1 - 1) := by
        intro _
        have he : col + 1 - 1 = col := by omega
        rw [he, generateSetPixel_self, generateSetPixel_self]
      obtain ⟨hfl, hgr⟩ := ih (col + 1) (generateSetPixel v g row col)
        (generateSetPixel v g2 row col) hpre2
      refine ⟨hfl, fun r c => ?_⟩
      rcases hgr r c with hl | ⟨ha, hb⟩
      · left
        exact hl
      · by_cases h2 : r = row ∧ c = col
        · left
          rw [ha, hb, h2.1, h2.2, generateSetPixel_self, generateSetPixel_self]
        · right
          rw [ha, hb]
          exact ⟨generateSetPixel_ne v g row col r c h2,
            generateSetPixel_ne v g2 row col r c h2⟩

theorem blockColGo_det (v : Viewport) (col : Nat) :
    ∀ (n row : Nat) (g g2 : Grid),
      (0 < row → g (row - 1) col = g2 (row - 1) col) →
      (blockColGo v col row n g).1 = (blockColGo v col row n g2).1 ∧
      ∀ r c, (blockColGo v col row n g).2 r c = (blockColGo v col row n g2).2 r c ∨
        ((blockColGo v col row n g).2 r c = g r c ∧
          (blockColGo v col row n g2).2 r c = g2 r c) := by
  intro n
  induction n with
  | zero => intro row g g2 _; exact ⟨rfl, fun r c => Or.inr ⟨rfl, rfl⟩⟩
  | succ n ih =>
    intro row g g2 hpre
    have hval : 0 < row →
        generateSetPixel v g row col (row - 1) col =
          generateSetPixel v g2 row col (row - 1) col := by
      intro hp
      rw [generateSetPixel_ne v g row col (row - 1) col (by rintro ⟨hh, _⟩; omega),
          generateSetPixel_ne v g2 row col (row - 1) col (by rintro ⟨hh, _⟩; omega)]
      exact hpre hp
    have hcnd : (0 < row ∧ generateSetPixel v g row col row col ≠
          generateSetPixel v g row col (row - 1) col) ↔
        (0 < row ∧ generateSetPixel v g2 row col row col ≠
          generateSetPixel v g2 row col (row - 1) col) := by
      constructor
      · rintro ⟨hp, hne⟩
        refine ⟨hp, ?_⟩
        rw [generateSetPixel_self, ← hval hp]
        rw [generateSetPixel_self] at hne
        exact hne
      · rintro ⟨hp, hne⟩
        refine ⟨hp, ?_⟩
        rw [generateSetPixel_self, hval hp]
        rw [generateSetPixel_self] at hne
        exact hne
    simp only [blockColGo]
    by_cases hstop : 0 < row ∧ generateSetPixel v g row col row col ≠
        generateSetPixel v g row col (row - 1) col
    · rw [if_pos hstop, if_pos (hcnd.mp hstop)]
      refine ⟨rfl, fun r c => ?_⟩
      by_cases h2 : r = row ∧ c = col
      · left
        rw [h2.1, h2.2]
        show generateSetPixel v g row col row col = generateSetPixel v g2 row col row col
        rw [generateSetPixel_self, generateSetPixel_self]
      · right
        exact ⟨generateSetPixel_ne v g row col r c h2, generateSetPixel_ne v g2 row col r c h2⟩
    · rw [if_neg hstop, if_neg (fun hc => hstop (hcnd.mpr hc))]
      have hpre2 : 0 < row + 1 →
          generateSetPixel v g row col (row + 1 - 1) col =
            generateSetPixel v g2 row col (row + 1 - 1) col := by
        intro _
        have he : row + 1 - 1 = row := by omega
        rw [he, generateSetPixel_self, generateSetPixel_self]
      obtain ⟨hfl, hgr⟩ := ih (row + 1) (generateSetPixel v g row col)
        (generateSetPixel v g2 row col) hpre2
      refine ⟨hfl, fun r c => ?_⟩
      rcases hgr r c with hl | ⟨ha, hb⟩
      · left
        exact hl
      · by_cases h2 : r = row ∧ c = col
        · left
          rw [ha, hb, h2.1, h2.2, generateSetPixel_self, generateSetPixel_self]
        · right
          rw [ha, hb]
          exact ⟨generateSetPixel_ne v g row col r c h2,
            generateSetPixel_ne v g2 row col r c h2⟩

theorem generateBlockRow_det (v : Viewport) (g g2 : Grid) (row colStart width : Nat)
    (hpre : 0 < colStart → g row (colStart - 1) = g2 row (colStart - 1)) :
    (generateBlockRow v g row colStart width).1 = (generateBlockRow v g2 row colStart width).1 ∧
    ∀ r c, (generateBlockRow v g row colStart width).2 r c =
        (generateBlockRow v g2 row colStart width).2 r c ∨
      ((generateBlockRow v g row colStart width).2 r c = g r c ∧
        (generateBlockRow v g2 row colStart width).2 r c = g2 r c) :=
  blockRowGo_det v row width colStart g g2 hpre

theorem generateBlockCol_det (v : Viewport) (g g2 : Grid) (col rowStart height : Nat)
    (hpre : 0 < rowStart → g (rowStart - 1) col = g2 (rowStart - 1) col) :
    (generateBlockCol v g col rowStart height).1 = (generateBlockCol v g2 col rowStart height).1 ∧
    ∀ r c, (generateBlockCol v g col rowStart height).2 r c =
        (generateBlockCol v g2 col rowStart height).2 r c ∨
      ((generateBlockCol v g col rowStart height).2 r c = g r c ∧
        (generateBlockCol v g2 col rowStart height).2 r c = g2 r c) :=
  blockColGo_det v col height rowStart g g2 hpre

theorem gridDisj_trans (gA gB gC gD gE gF : Grid)
    (h1 : ∀ r c, gA r c = gB r c ∨ (gA r c = gC r c ∧ gB r c = gD r c))
    (h2 : ∀ r c, gC r c = gD r c ∨ (gC r c = gE r c ∧ gD r c = gF r c)) :
    ∀ r c, gA r c = gB r c ∨ (gA r c = gE r c ∧ gB r c = gF r c) := by
  intro r c
  rcases h1 r c with hl | ⟨ha, hb⟩
  · left
    exact hl
  · rcases h2 r c with hl2 | ⟨hc2, hd⟩
    · left
      rw [ha, hb]
      exact hl2
    · right
      rw [ha, hb]
      exact ⟨hc2, hd⟩

theorem borderEval_det (v : Viewport) (sx sy w h : Nat) (g g2 : Grid)
    (hw : 3 ≤ w) (hh : 3 ≤ h)
    (hpre : 0 < sx → ∀ r, sy ≤ r → r < sy + h → g r (sx - 1) = g2 r (sx - 1)) :
    (borderEval v sx sy w h g).1 = (borderEval v sx sy w h g2).1 ∧
    ∀ r c, (borderEval v sx sy w h g).2 r c = (borderEval v sx sy w h g2).2 r c ∨
      ((borderEval v sx sy w h g).2 r c = g r c ∧
        (borderEval v sx sy w h g2).2 r c = g2 r c) := by
  obtain ⟨hf1, hp1⟩ := generateBlockRow_det v g g2 sy sx w
    (fun hsx => hpre hsx sy (by omega) (by omega))
  rcases hst1 : generateBlockRow v g sy sx w with ⟨b1, g1⟩
  rcases hst1b : generateBlockRow v g2 sy sx w with ⟨b1x, g1x⟩
  rw [hst1, hst1b] at hf1 hp1
  dsimp only at hf1 hp1
  unfold borderEval
  rw [hst1, hst1b]
  subst hf1
  cases b1
  · exact ⟨rfl, hp1⟩
  · dsimp only
    obtain ⟨hf2, hp2⟩ := generateBlockRow_det v g1 g1x (sy + h - 1) sx w
      (by
        intro hsx
        rcases hp1 (sy + h - 1) (sx - 1) with hl | ⟨ha, hb⟩
        · exact hl
        · rw [ha, hb]
          exact hpre hsx (sy + h - 1) (by omega) (by omega))
    rcases hst2 : generateBlockRow v g1 (sy + h - 1) sx w with ⟨b2, g2a⟩
    rcases hst2b : generateBlockRow v g1x (sy + h - 1) sx w with ⟨b2x, g2b⟩
    rw [hst2, hst2b] at hf2 hp2
    dsimp only at hf2 hp2
    subst hf2
    cases b2
    · exact ⟨rfl, gridDisj_trans g2a g2b g1 g1x g g2 hp2 hp1⟩
    · dsimp only
      have hcorner : ∀ c2, sx ≤ c2 → c2 < sx + w → g2a sy c2 = g2b sy c2 := by
        intro c2 hc1 hc2
        have hwr1 : g1 sy c2 = (escapeScoreAt v sy c2 : Int) := by
          have hx := generateBlockRow_true_written v g sy sx w (by rw [hst1]) c2 hc1 hc2
          rw [hst1] at hx
          exact hx
        have hwr1b : g1x sy c2 = (escapeScoreAt v sy c2 : Int) := by
          have hx := generateBlockRow_true_written v g2 sy sx w (by rw [hst1b]) c2 hc1 hc2
          rw [hst1b] at hx
          exact hx
        have hfr2 : g2a sy c2 = g1 sy c2 := by
          have hx := generateBlockRow_frame v g1 (sy + h - 1) sx w sy c2
            (by rintro ⟨ha, _, _⟩; omega)
          rw [hst2] at hx
          exact hx
        have hfr2b : g2b sy c2 = g1x sy c2 := by
          have hx := generateBlockRow_frame v g1x (sy + h - 1) sx w sy c2
            (by rintro ⟨ha, _, _⟩; omega)
          rw [hst2b] at hx
          exact hx
        rw [hfr2, hfr2b, hwr1, hwr1b]
      obtain ⟨hf3, hp3⟩ := generateBlockCol_det v g2a g2b sx (sy + 1) (h - 2)
        (fun _ => by
          have he : sy + 1 - 1 = sy := by omega
          rw [he]
          exact hcorner sx (by omega) (by omega))
      rcases hst3 : generateBlockCol v g2a sx (sy + 1) (h - 2) with ⟨b3, g3a⟩
      rcases hst3b : generateBlockCol v g2b sx (sy + 1) (h - 2) with ⟨b3x, g3b⟩
      rw [hst3, hst3b] at hf3 hp3
      dsimp only at hf3 hp3
      subst hf3
      cases b3
      · exact ⟨rfl, gridDisj_trans g3a g3b g2a g2b g g2 hp3
          (gridDisj_trans g2a g2b g1 g1x g g2 hp2 hp1)⟩
      · dsimp only
        have hcorner3 : g3a sy (sx + w - 1) = g3b sy (sx + w - 1) := by
          have hfr3 : g3a sy (sx + w - 1) = g2a sy (sx + w - 1) := by
            have hx := generateBlockCol_frame v g2a sx (sy + 1) (h - 2) sy (sx + w - 1)
              (by rintro ⟨_, hb, _⟩; omega)
            rw [hst3] at hx
            exact hx
          have hfr3b : g3b sy (sx + w - 1) = g2b sy (sx + w - 1) := by
            have hx := generateBlockCol_frame v g2b sx (sy + 1) (h - 2) sy (sx + w - 1)
              (by rintro ⟨_, hb, _⟩; omega)
            rw [hst3b] at hx
            exact hx
          rw [hfr3, hfr3b]
          exact hcorner (sx + w - 1) (by omega) (by omega)
        obtain ⟨hf4, hp4⟩ := generateBlockCol_det v g3a g3b (sx + w - 1) (sy + 1) (h - 2)
          (fun _ => by
            have he : sy + 1 - 1 = sy := by omega
            rw [he]
            exact hcorner3)
        refine ⟨hf4, ?_⟩
        exact gridDisj_trans _ _ g3a g3b g g2 hp4
          (gridDisj_trans g3a g3b g2a g2b g g2 hp3
            (gridDisj_trans g2a g2b g1 g1x g g2 hp2 hp1))

/-! ### The divide-and-conquer generator: frame, coverage, determinism -/

theorem dac_frame_aux (v : Viewport) :
    ∀ (N sx sy w h : Nat) (g : Grid) (r c : Nat), w + h ≤ N →
      (r < sy ∨ sy + h ≤ r ∨ c < sx ∨ sx + w ≤ c) →
      generateDivideAndConquer v sx sy w h g r c = g r c := by
  intro N
  induction N with
  | zero =>
    intro sx sy w h g r c hN hout
    rw [generateDivideAndConquer.eq_def, if_pos (show w < 3 ∨ h < 3 by omega),
      generateRectangle_eval, if_neg (by omega)]
  | succ N ih =>
    intro sx sy w h g r c hN hout
    rw [generateDivideAndConquer.eq_def]
    by_cases hsmall : w < 3 ∨ h < 3
    · rw [if_pos hsmall, generateRectangle_eval, if_neg (by omega)]
    · rw [if_neg hsmall]
      have hw3 : 3 ≤ w := by omega
      have hh3 : 3 ≤ h := by omega
      rcases hbe : borderEval v sx sy w h g with ⟨cs, g1⟩
      dsimp only
      have hg1 : g1 r c = g r c := by
        have hx := borderEval_frame v sx sy w h g r c hw3 hh3 hout
        rw [hbe] at hx
        exact hx
      split
      · rw [fillRowGo_eval, if_neg (by omega)]
        exact hg1
      · rw [ih (sx + w / 2) (sy + h / 2) (w - w / 2) (h - h / 2) _ r c (by omega) (by omega),
            ih sx (sy + h / 2) (w / 2) (h - h / 2) _ r c (by omega) (by omega),
            ih (sx + w / 2) sy (w - w / 2) (h / 2) _ r c (by omega) (by omega),
            ih sx sy (w / 2) (h / 2) g1 r c (by omega) (by omega)]
        exact hg1

theorem dac_frame (v : Viewport) (sx sy w h : Nat) (g : Grid) (r c : Nat)
    (hout : r < sy ∨ sy + h ≤ r ∨ c < sx ∨ sx + w ≤ c) :
    generateDivideAndConquer v sx sy w h g r c = g r c :=
  dac_frame_aux v (w + h) sx sy w h g r c le_rfl hout

theorem dac_cover_aux (v : Viewport) :
    ∀ (N sx sy w h : Nat) (g : Grid) (r c : Nat), w + h ≤ N →
      sy ≤ r → r < sy + h → sx ≤ c → c < sx + w →
      ∃ r2 c2, generateDivideAndConquer v sx sy w h g r c = (escapeScoreAt v r2 c2 : Int) := by
  intro N
  induction N with
  | zero => intro sx sy w h g r c hN h1 h2 h3 h4; omega
  | succ N ih =>
    intro sx sy w h g r c hN h1 h2 h3 h4
    rw [generateDivideAndConquer.eq_def]
    by_cases hsmall : w < 3 ∨ h < 3
    · rw [if_pos hsmall, generateRectangle_eval, if_pos ⟨h1, h2, h3, h4⟩]
      exact ⟨r, c, rfl⟩
    · rw [if_neg hsmall]
      have hw3 : 3 ≤ w := by omega
      have hh3 : 3 ≤ h := by omega
      rcases hbe : borderEval v sx sy w h g with ⟨cs, g1⟩
      dsimp only
      split
      · rename_i hskip
        have htrue : (borderEval v sx sy w h g).1 = true := by
          rw [hbe]
          exact hskip.1
        obtain ⟨htb, hlr⟩ := borderEval_true_border v sx sy w h g hw3 hh3 htrue
        rw [fillRowGo_eval]
        by_cases hint : sy + 1 ≤ r ∧ r < sy + 1 + (h - 2) ∧ sx + 1 ≤ c ∧ c < sx + 1 + (w - 2)
        · rw [if_pos hint]
          refine ⟨sy, sx, ?_⟩
          have hx := (htb sx (by omega) (by omega)).1
          rw [hbe] at hx
          exact hx
        · rw [if_neg hint]
          by_cases hr1 : r = sy
          · refine ⟨sy, c, ?_⟩
            have hx := (htb c h3 h4).1
            rw [hbe] at hx
            rw [hr1]
            exact hx
          · by_cases hr2 : r = sy + h - 1
            · refine ⟨sy + h - 1, c, ?_⟩
              have hx := (htb c h3 h4).2
              rw [hbe] at hx
              rw [hr2]
              exact hx
            · by_cases hc1 : c = sx
              · refine ⟨r, sx, ?_⟩
                have hx := (hlr r (by omega) (by omega)).1
                rw [hbe] at hx
                rw [hc1]
                exact hx
              · have hc2 : c = sx + w - 1 := by
                  by_contra hne
                  exact hint ⟨by omega, by omega, by omega, by omega⟩
                refine ⟨r, sx + w - 1, ?_⟩
                have hx := (hlr r (by omega) (by omega)).2
                rw [hbe] at hx
                rw [hc2]
                exact hx
      · by_cases hrow : r < sy + h / 2
        · by_cases hcol : c < sx + w / 2
          · rw [dac_frame v (sx + w / 2) (sy + h / 2) (w - w / 2) (h - h / 2) _ r c (by omega),
                dac_frame v sx (sy + h / 2) (w / 2) (h - h / 2) _ r c (by omega),
                dac_frame v (sx + w / 2) sy (w - w / 2) (h / 2) _ r c (by omega)]
            exact ih sx sy (w / 2) (h / 2) g1 r c (by omega) h1 hrow h3 hcol
          · rw [dac_frame v (sx + w / 2) (sy + h / 2) (w - w / 2) (h - h / 2) _ r c (by omega),
                dac_frame v sx (sy + h / 2) (w / 2) (h - h / 2) _ r c (by omega)]
            exact ih (sx + w / 2) sy (w - w / 2) (h / 2) _ r c (by omega) h1 hrow
              (by omega) (by omega)
        · by_cases hcol : c < sx + w / 2
          · rw [dac_frame v (sx + w / 2) (sy + h / 2) (w - w / 2) (h - h / 2) _ r c (by omega)]
            exact ih sx (sy + h / 2) (w / 2) (h - h / 2) _ r c (by omega) (by omega) (by omega) h3 hcol
          · exact ih (sx + w / 2) (sy + h / 2) (w - w / 2) (h - h / 2) _ r c (by omega)
              (by omega) (by omega) (by omega) (by omega)

theorem dac_cover (v : Viewport) (sx sy w h : Nat) (g : Grid) (r c : Nat)
    (h1 : sy ≤ r) (h2 : r < sy + h) (h3 : sx ≤ c) (h4 : c < sx + w) :
    ∃ r2 c2, generateDivideAndConquer v sx sy w h g r c = (escapeScoreAt v r2 c2 : Int) :=
  dac_cover_aux v (w + h) sx sy w h g r c le_rfl h1 h2 h3 h4

theorem dac_det_children (v : Viewport) (N sx sy w h : Nat) (gA gB : Grid)
    (ih : ∀ (sx2 sy2 w2 h2 : Nat) (gx gy : Grid), w2 + h2 ≤ N →
      (0 < sx2 → ∀ r, sy2 ≤ r → r < sy2 + h2 → gx r (sx2 - 1) = gy r (sx2 - 1)) →
      ∀ r c, sy2 ≤ r → r < sy2 + h2 → sx2 ≤ c → c < sx2 + w2 →
        generateDivideAndConquer v sx2 sy2 w2 h2 gx r c =
          generateDivideAndConquer v sx2 sy2 w2 h2 gy r c)
    (hw3 : 3 ≤ w) (hh3 : 3 ≤ h) (hN : w + h ≤ N + 1)
    (hpre : 0 < sx → ∀ r, sy ≤ r → r < sy + h → gA r (sx - 1) = gB r (sx - 1)) :
    ∀ r c, sy ≤ r → r < sy + h → sx ≤ c → c < sx + w →
      generateDivideAndConquer v (sx + w / 2) (sy + h / 2) (w - w / 2) (h - h / 2)
        (generateDivideAndConquer v sx (sy + h / 2) (w / 2) (h - h / 2)
          (generateDivideAndConquer v (sx + w / 2) sy (w - w / 2) (h / 2)
            (generateDivideAndConquer v sx sy (w / 2) (h / 2) gA))) r c =
      generateDivideAndConquer v (sx + w / 2) (sy + h / 2) (w - w / 2) (h - h / 2)
        (generateDivideAndConquer v sx (sy + h / 2) (w / 2) (h - h / 2)
          (generateDivideAndConquer v (sx + w / 2) sy (w - w / 2) (h / 2)
            (generateDivideAndConquer v sx sy (w / 2) (h / 2) gB))) r c := by
  have hTL : ∀ r c, sy ≤ r → r < sy + h / 2 → sx ≤ c → c < sx + w / 2 →
      generateDivideAndConquer v sx sy (w / 2) (h / 2) gA r c =
        generateDivideAndConquer v sx sy (w / 2) (h / 2) gB r c := by
    intro r c p1 p2 p3 p4
    exact ih sx sy (w / 2) (h / 2) gA gB (by omega)
      (fun hsx r2 q1 q2 => hpre hsx r2 (by omega) (by omega)) r c p1 p2 p3 p4
  have hTR : ∀ r c, sy ≤ r → r < sy + h / 2 → sx + w / 2 ≤ c → c < sx + w →
      generateDivideAndConquer v (sx + w / 2) sy (w - w / 2) (h / 2)
          (generateDivideAndConquer v sx sy (w / 2) (h / 2) gA) r c =
        generateDivideAndConquer v (sx + w / 2) sy (w - w / 2) (h / 2)
          (generateDivideAndConquer v sx sy (w / 2) (h / 2) gB) r c := by
    intro r c p1 p2 p3 p4
    exact ih (sx + w / 2) sy (w - w / 2) (h / 2) _ _ (by omega)
      (fun _ r2 q1 q2 => hTL r2 (sx + w / 2 - 1) (by omega) (by omega) (by omega) (by omega))
      r c p1 p2 p3 (by omega)
  have hBL : ∀ r c, sy + h / 2 ≤ r → r < sy + h → sx ≤ c → c < sx + w / 2 →
      generateDivideAndConquer v sx (sy + h / 2) (w / 2) (h - h / 2)
          (generateDivideAndConquer v (sx + w / 2) sy (w - w / 2) (h / 2)
            (generateDivideAndConquer v sx sy (w / 2) (h / 2) gA)) r c =
        generateDivideAndConquer v sx (sy + h / 2) (w / 2) (h - h / 2)
          (generateDivideAndConquer v (sx + w / 2) sy (w - w / 2) (h / 2)
            (generateDivideAndConquer v sx sy (w / 2) (h / 2) gB)) r c := by
    intro r c p1 p2 p3 p4
    refine ih sx (sy + h / 2) (w / 2) (h - h / 2) _ _ (by omega) ?_ r c p1 (by omega) p3 p4
    intro hsx r2 q1 q2
    rw [dac_frame v (sx + w / 2) sy (w - w / 2) (h / 2) _ r2 (sx - 1) (by omega),
        dac_frame v sx sy (w / 2) (h / 2) gA r2 (sx - 1) (by omega),
        dac_frame v (sx + w / 2) sy (w - w / 2) (h / 2) _ r2 (sx - 1) (by omega),
        dac_frame v sx sy (w / 2) (h / 2) gB r2 (sx - 1) (by omega)]
    exact hpre hsx r2 (by omega) (by omega)
  have hBR : ∀ r c, sy + h / 2 ≤ r → r < sy + h → sx + w / 2 ≤ c → c < sx + w →
      generateDivideAndConquer v (sx + w / 2) (sy + h / 2) (w - w / 2) (h - h / 2)
          (generateDivideAndConquer v sx (sy + h / 2) (w / 2) (h - h / 2)
            (generateDivideAndConquer v (sx + w / 2) sy (w - w / 2) (h / 2)
              (generateDivideAndConquer v sx sy (w / 2) (h / 2) gA))) r c =
        generateDivideAndConquer v (sx + w / 2) (sy + h / 2) (w - w / 2) (h - h / 2)
          (generateDivideAndConquer v sx (sy + h / 2) (w / 2) (h - h / 2)
            (generateDivideAndConquer v (sx + w / 2) sy (w - w / 2) (h / 2)
              (generateDivideAndConquer v sx sy (w / 2) (h / 2) gB))) r c := by
    intro r c p1 p2 p3 p4
    refine ih (sx + w / 2) (sy + h / 2) (w - w / 2) (h - h / 2) _ _ (by omega) ?_ r c p1
      (by omega) p3 (by omega)
    intro _ r2 q1 q2
    exact hBL r2 (sx + w / 2 - 1) (by omega) (by omega) (by omega) (by omega)
  intro r c h1 h2 h3 h4
  by_cases hrow : r < sy + h / 2
  · by_cases hcol : c < sx + w / 2
    · rw [dac_frame v (sx + w / 2) (sy + h / 2) (w - w / 2) (h - h / 2) _ r c (by omega),
          dac_frame v sx (sy + h / 2) (w / 2) (h - h / 2) _ r c (by omega),
          dac_frame v (sx + w / 2) sy (w - w / 2) (h / 2) _ r c (by omega),
          dac_frame v (sx + w / 2) (sy + h / 2) (w - w / 2) (h - h / 2) _ r c (by omega),
          dac_frame v sx (sy + h / 2) (w / 2) (h - h / 2) _ r c (by omega),
          dac_frame v (sx + w / 2) sy (w - w / 2) (h / 2) _ r c (by omega)]
      exact hTL r c h1 hrow h3 hcol
    · rw [dac_frame v (sx + w / 2) (sy + h / 2) (w - w / 2) (h - h / 2) _ r c (by omega),
          dac_frame v sx (sy + h / 2) (w / 2) (h - h / 2) _ r c (by omega),
          dac_frame v (sx + w / 2) (sy + h / 2) (w - w / 2) (h - h / 2) _ r c (by omega),
          dac_frame v sx (sy + h / 2) (w / 2) (h - h / 2) _ r c (by omega)]
      exact hTR r c h1 hrow (by omega) h4
  · by_cases hcol : c < sx + w / 2
    · rw [dac_frame v (sx + w / 2) (sy + h / 2) (w - w / 2) (h - h / 2) _ r c (by omega),
          dac_frame v (sx + w / 2) (sy + h / 2) (w - w / 2) (h - h / 2) _ r c (by omega)]
      exact hBL r c (by omega) h2 h3 hcol
    · exact hBR r c (by omega) h2 (by omega) h4

theorem dac_det_aux (v : Viewport) :
    ∀ (N sx sy w h : Nat) (g g2 : Grid), w + h ≤ N →
      (0 < sx → ∀ r, sy ≤ r → r < sy + h → g r (sx - 1) = g2 r (sx - 1)) →
      ∀ r c, sy ≤ r → r < sy + h → sx ≤ c → c < sx + w →
        generateDivideAndConquer v sx sy w h g r c =
          generateDivideAndConquer v sx sy w h g2 r c := by
  intro N
  induction N with
  | zero => intro sx sy w h g g2 hN hpre r c h1 h2 h3 h4; omega
  | succ N ih =>
    intro sx sy w h g g2 hN hpre r c h1 h2 h3 h4
    conv_lhs => rw [generateDivideAndConquer.eq_def]
    conv_rhs => rw [generateDivideAndConquer.eq_def]
    by_cases hsmall : w < 3 ∨ h < 3
    · rw [if_pos hsmall, if_pos hsmall, generateRectangle_eval, generateRectangle_eval,
        if_pos ⟨h1, h2, h3, h4⟩, if_pos ⟨h1, h2, h3, h4⟩]
    · rw [if_neg hsmall, if_neg hsmall]
      have hw3 : 3 ≤ w := by omega
      have hh3 : 3 ≤ h := by omega
      obtain ⟨hfl, hpt⟩ := borderEval_det v sx sy w h g g2 hw3 hh3 hpre
      rcases hbe : borderEval v sx sy w h g with ⟨cs, gA⟩
      rcases hbe2 : borderEval v sx sy w h g2 with ⟨cs2, gB⟩
      rw [hbe, hbe2] at hfl hpt
      dsimp only at hfl hpt
      subst hfl
      dsimp only
      have hpreAB : 0 < sx → ∀ r2, sy ≤ r2 → r2 < sy + h →
          gA r2 (sx - 1) = gB r2 (sx - 1) := by
        intro hsx r2 q1 q2
        rcases hpt r2 (sx - 1) with hl | ⟨ha, hb⟩
        · exact hl
        · rw [ha, hb]
          exact hpre hsx r2 q1 q2
      cases cs
      · rw [if_neg (by simp), if_neg (by simp)]
        exact dac_det_children v N sx sy w h gA gB ih hw3 hh3 hN hpreAB r c h1 h2 h3 h4
      · have htA : (borderEval v sx sy w h g).1 = true := by rw [hbe]
        have htB : (borderEval v sx sy w h g2).1 = true := by rw [hbe2]
        obtain ⟨htbA, hlrA⟩ := borderEval_true_border v sx sy w h g hw3 hh3 htA
        obtain ⟨htbB, hlrB⟩ := borderEval_true_border v sx sy w h g2 hw3 hh3 htB
        have hcA : gA sy sx = (escapeScoreAt v sy sx : Int) := by
          have hx := (htbA sx (by omega) (by omega)).1
          rw [hbe] at hx
          exact hx
        have hcB : gB sy sx = (escapeScoreAt v sy sx : Int) := by
          have hx := (htbB sx (by omega) (by omega)).1
          rw [hbe2] at hx
          exact hx
        by_cases h0 : (escapeScoreAt v sy sx : Int) ≠ 0
        · rw [if_pos ⟨rfl, by rw [hcA]; exact h0⟩, if_pos ⟨rfl, by rw [hcB]; exact h0⟩,
            fillRowGo_eval, fillRowGo_eval]
          by_cases hint : sy + 1 ≤ r ∧ r < sy + 1 + (h - 2) ∧ sx + 1 ≤ c ∧ c < sx + 1 + (w - 2)
          · rw [if_pos hint, if_pos hint, hcA, hcB]
          · rw [if_neg hint, if_neg hint]
            by_cases hr1 : r = sy
            · have hxA := (htbA c h3 h4).1
              rw [hbe] at hxA
              have hxB := (htbB c h3 h4).1
              rw [hbe2] at hxB
              rw [hr1]
              exact hxA.trans hxB.symm
            · by_cases hr2 : r = sy + h - 1
              · have hxA := (htbA c h3 h4).2
                rw [hbe] at hxA
                have hxB := (htbB c h3 h4).2
                rw [hbe2] at hxB
                rw [hr2]
                exact hxA.trans hxB.symm
              · by_cases hc1 : c = sx
                · have hxA := (hlrA r (by omega) (by omega)).1
                  rw [hbe] at hxA
                  have hxB := (hlrB r (by omega) (by omega)).1
                  rw [hbe2] at hxB
                  rw [hc1]
                  exact hxA.trans hxB.symm
                · have hc2 : c = sx + w - 1 := by
                    by_contra hne
                    exact hint ⟨by omega, by omega, by omega, by omega⟩
                  have hxA := (hlrA r (by omega) (by omega)).2
                  rw [hbe] at hxA
                  have hxB := (hlrB r (by omega) (by omega)).2
                  rw [hbe2] at hxB
                  rw [hc2]
                  exact hxA.trans hxB.symm
        · rw [if_neg (by rintro ⟨_, hne⟩; rw [hcA] at hne; exact h0 hne),
              if_neg (by rintro ⟨_, hne⟩; rw [hcB] at hne; exact h0 hne)]
          exact dac_det_children v N sx sy w h gA gB ih hw3 hh3 hN hpreAB r c h1 h2 h3 h4

theorem dac_det (v : Viewport) (sx sy w h : Nat) (g g2 : Grid)
    (hpre : 0 < sx → ∀ r, sy ≤ r → r < sy + h → g r (sx - 1) = g2 r (sx - 1))
    (r c : Nat) (h1 : sy ≤ r) (h2 : r < sy + h) (h3 : sx ≤ c) (h4 : c < sx + w) :
    generateDivideAndConquer v sx sy w h g r c = generateDivideAndConquer v sx sy w h g2 r c :=
  dac_det_aux v (w + h) sx sy w h g g2 le_rfl hpre r c h1 h2 h3 h4

/-! ### Claim theorems -/

/-- C4: for every pixel (row, col) within the configured dimensions, the
coordinate handed to the escape scorer is the pixel center,
x = left + resolution * col + resolution / 2 and
y = top - resolution * row - resolution / 2; the mapping is a pure
function of row, col, left, top and resolution (in the model a total
function with no failure modes), and generateSetPixel stores exactly the
escape score of that coordinate at (row, col), touching no other cell. -/
theorem c4_pixel_center (s : Session) (g : Grid) (row col : Nat)
    (hrow : row < s.height) (hcol : col < s.width) :
    pixelX (toViewport s) col = s.left + s.resolution * col + s.resolution / 2 ∧
    pixelY (toViewport s) row = s.top - s.resolution * row - s.resolution / 2 ∧
    generateSetPixel (toViewport s) g row col row col =
      (escapeScore (toViewport s) (s.left + s.resolution * col + s.resolution / 2)
        (s.top - s.resolution * row - s.resolution / 2) : Int) ∧
    (∀ r c, ¬(r = row ∧ c = col) → generateSetPixel (toViewport s) g row col r c = g r c) := by
  have hx : pixelX (toViewport s) col = s.left + s.resolution * col + s.resolution / 2 := by
    unfold pixelX toViewport
    ring
  have hy : pixelY (toViewport s) row = s.top - s.resolution * row - s.resolution / 2 := by
    unfold pixelY toViewport
    ring
  refine ⟨hx, hy, ?_, ?_⟩
  · rw [generateSetPixel_self]
    unfold escapeScoreAt
    rw [hx, hy]
  · intro r c hne
    exact generateSetPixel_ne (toViewport s) g row col r c hne

theorem c4_witness :
    pixelX (toViewport sessionFive) 2 =
      sessionFive.left + sessionFive.resolution * 2 + sessionFive.resolution / 2 ∧
    pixelY (toViewport sessionFive) 1 =
      sessionFive.top - sessionFive.resolution * 1 - sessionFive.resolution / 2 ∧
    generateSetPixel (toViewport sessionFive) g37 1 2 1 2 =
      (escapeScore (toViewport sessionFive)
        (sessionFive.left + sessionFive.resolution * 2 + sessionFive.resolution / 2)
        (sessionFive.top - sessionFive.resolution * 1 - sessionFive.resolution / 2) : Int) ∧
    (∀ r c, ¬(r = 1 ∧ c = 2) → generateSetPixel (toViewport sessionFive) g37 1 2 r c = g37 r c) :=
  c4_pixel_center sessionFive g37 1 2 (by decide) (by decide)

/-- C6: getScores returns the grid exactly when the session is fresh;
on a stale session (in particular right after createMandelbrotSet and
right after any MandelbrotSet_setPosition) it returns none (the model of
the NULL-plus-diagnostic path) instead of stale data; and any completed
generation leaves the session fresh with unchanged dimensions, after
which getScores succeeds. -/
theorem c6_getScores_freshness :
    (∀ s : Session, MandelbrotSet_getScores s = some s.grid ↔ s.isGenerated = true) ∧
    (∀ s : Session, s.isGenerated = false → MandelbrotSet_getScores s = none) ∧
    (∀ (w h : Nat) (g0 : Grid) (c0 : ℚ × ℚ) (r0 t0 l0 : ℚ),
      MandelbrotSet_getScores (createMandelbrotSet w h g0 c0 r0 t0 l0) = none) ∧
    (∀ (s : Session) (center : ℚ × ℚ) (zoom : Nat),
      MandelbrotSet_getScores (MandelbrotSet_setPosition s center zoom) = none) ∧
    (∀ s : Session,
      MandelbrotSet_getScores (MandelbrotSet_generate s) =
        some (MandelbrotSet_generate s).grid ∧
      (MandelbrotSet_generate s).width = s.width ∧
      (MandelbrotSet_generate s).height = s.height) ∧
    (∀ s : Session,
      MandelbrotSet_getScores (MandelbrotSet_fastGenerate s) =
        some (MandelbrotSet_fastGenerate s).grid ∧
      (MandelbrotSet_fastGenerate s).width = s.width ∧
      (MandelbrotSet_fastGenerate s).height = s.height) := by
  refine ⟨?_, ?_, ?_, ?_, ?_, ?_⟩
  · intro s
    unfold MandelbrotSet_getScores
    constructor
    · intro hsome
      by_contra hgen
      rw [if_neg (by simpa using hgen)] at hsome
      exact Option.noConfusion hsome
    · intro hgen
      rw [if_pos hgen]
  · intro s hgen
    unfold MandelbrotSet_getScores
    rw [if_neg (by rw [hgen]; exact Bool.false_ne_true)]
  · intro w h g0 c0 r0 t0 l0
    rfl
  · intro s center zoom
    rfl
  · intro s
    exact ⟨rfl, rfl, rfl⟩
  · intro s
    exact ⟨rfl, rfl, rfl⟩

theorem c6_witness :
    MandelbrotSet_getScores (createMandelbrotSet 5 5 g37 (0, 0) 0 0 0) = none ∧
    MandelbrotSet_getScores
      (MandelbrotSet_setPosition (createMandelbrotSet 5 5 g37 (0, 0) 0 0 0) (0, 0) 0) = none ∧
    MandelbrotSet_getScores (MandelbrotSet_generate sessionFive) =
      some (MandelbrotSet_generate sessionFive).grid :=
  ⟨c6_getScores_freshness.2.2.1 5 5 g37 (0, 0) 0 0 0,
   c6_getScores_freshness.2.2.2.1 (createMandelbrotSet 5 5 g37 (0, 0) 0 0 0) (0, 0) 0,
   (c6_getScores_freshness.2.2.2.2.1 sessionFive).1⟩

/-- C7: MandelbrotSet_setPosition recomputes the three derived fields
together and mutually consistently, resolution = 1 / 2 ^ zoom (always
positive), left = center.x - width * resolution / 2 and
top = center.y + height * resolution / 2, stores the new center, and
makes the session stale, while width, height, the grid and
maxIterations are unchanged. -/
theorem c7_setPosition (s : Session) (center : ℚ × ℚ) (zoom : Nat) :
    (MandelbrotSet_setPosition s center zoom).resolution = 1 / (2 : ℚ) ^ zoom ∧
    0 < (MandelbrotSet_setPosition s center zoom).resolution ∧
    (MandelbrotSet_setPosition s center zoom).left =
      center.1 - (s.width : ℚ) * (MandelbrotSet_setPosition s center zoom).resolution / 2 ∧
    (MandelbrotSet_setPosition s center zoom).top =
      center.2 + (s.height : ℚ) * (MandelbrotSet_setPosition s center zoom).resolution / 2 ∧
    (MandelbrotSet_setPosition s center zoom).center = center ∧
    (MandelbrotSet_setPosition s center zoom).isGenerated = false ∧
    (MandelbrotSet_setPosition s center zoom).width = s.width ∧
    (MandelbrotSet_setPosition s center zoom).height = s.height ∧
    (MandelbrotSet_setPosition s center zoom).grid = s.grid ∧
    (MandelbrotSet_setPosition s center zoom).maxIterations = s.maxIterations := by
  refine ⟨rfl, ?_, rfl, rfl, rfl, rfl, rfl, rfl, rfl, rfl⟩
  show (0 : ℚ) < 1 / (2 : ℚ) ^ zoom
  positivity

/-- C8: MandelbrotSet_setMaxIterations updates only the maxIterations
field; it performs no fresh-to-stale transition and leaves every other
field, including every stored score, unchanged. -/
theorem c8_setMaxIterations (s : Session) (m : Nat) :
    (MandelbrotSet_setMaxIterations s m).maxIterations = m ∧
    (MandelbrotSet_setMaxIterations s m).isGenerated = s.isGenerated ∧
    (MandelbrotSet_setMaxIterations s m).width = s.width ∧
    (MandelbrotSet_setMaxIterations s m).height = s.height ∧
    (MandelbrotSet_setMaxIterations s m).center = s.center ∧
    (MandelbrotSet_setMaxIterations s m).resolution = s.resolution ∧
    (MandelbrotSet_setMaxIterations s m).top = s.top ∧
    (MandelbrotSet_setMaxIterations s m).left = s.left ∧
    (MandelbrotSet_setMaxIterations s m).grid = s.grid :=
  ⟨rfl, rfl, rfl, rfl, rfl, rfl, rfl, rfl, rfl⟩

/-- C1 counterexample: on the 5 x 5 viewport centered at the origin at
zoom 0 with maxIterations 2, every border pixel escapes after one
iteration (uniform score 1), so the accelerated generator prunes and
flood-fills the interior with 1, while the naive generator computes the
central pixel (coordinate (0, 0), inside the cardioid) as 2; the two
grids are not bit-identical. -/
theorem c1_counterexample :
    (MandelbrotSet_generate sessionFive).grid 2 2 = 2 ∧
    (MandelbrotSet_fastGenerate sessionFive).grid 2 2 = 1 ∧
    (MandelbrotSet_fastGenerate sessionFive).grid 2 2 ≠
      (MandelbrotSet_generate sessionFive).grid 2 2 := by
  have hgen : (MandelbrotSet_generate sessionFive).grid 2 2 = 2 := by
    show generateRectangle (toViewport sessionFive) 0 0 sessionFive.width sessionFive.height
        sessionFive.grid 2 2 = 2
    rw [generateRectangle_eval, if_pos (by decide)]
    norm_num [escapeScoreAt, escapeScore, cardioidTest, pixelX, pixelY, toViewport,
      sessionFive, MandelbrotSet_setPosition, MandelbrotSet_setMaxIterations,
      createMandelbrotSet]
  have hfast : (MandelbrotSet_fastGenerate sessionFive).grid 2 2 = 1 := by
    show generateDivideAndConquer (toViewport sessionFive) 0 0 5 5 g37 2 2 = 1
    rw [generateDivideAndConquer.eq_def]
    norm_num [borderEval, generateBlockRow, generateBlockCol, blockRowGo, blockColGo,
      fillRowGo, fillColGo, generateSetPixel, setPix, escapeScoreAt, escapeScore,
      cardioidTest, escapeGo, pixelX, pixelY, toViewport, sessionFive,
      MandelbrotSet_setPosition, MandelbrotSet_setMaxIterations, createMandelbrotSet, g37]
  refine ⟨hgen, hfast, ?_⟩
  rw [hgen, hfast]
  decide

/-- C1 (amended): the two generators produce bit-identical score grids
(indeed identical sessions) whenever the viewport is below the
subdivision floor, width < 3 or height < 3, where the accelerated
generator delegates to the naive one; for larger viewports the
flood-fill pruning can diverge from the naive generator when a
uniformly bordered rectangle has a non-uniform interior (the documented
narrow-cusp caveat of the Mariani/Silver algorithm), as the recorded
counterexample shows. -/
theorem c1_amended (s : Session) (hsmall : s.width < 3 ∨ s.height < 3) :
    MandelbrotSet_fastGenerate s = MandelbrotSet_generate s := by
  unfold MandelbrotSet_fastGenerate MandelbrotSet_generate
  rw [generateDivideAndConquer.eq_def, if_pos hsmall]

theorem c1_amended_witness :
    (sessionTwo.width < 3 ∨ sessionTwo.height < 3) ∧
    MandelbrotSet_fastGenerate sessionTwo = MandelbrotSet_generate sessionTwo :=
  ⟨Or.inl (by decide), c1_amended sessionTwo (Or.inl (by decide))⟩

/-- C9: regenerating with the accelerated generator on an unchanged
viewport and maxIterations is idempotent: a second fastGenerate call
reproduces the first call's session (in particular its grid) exactly;
moreover the scores inside the configured viewport do not depend on the
grid contents the generator starts from. -/
theorem c9_idempotent (s : Session) :
    MandelbrotSet_fastGenerate (MandelbrotSet_fastGenerate s) = MandelbrotSet_fastGenerate s ∧
    (∀ (g0 : Grid) (r c : Nat), r < s.height → c < s.width →
      generateDivideAndConquer (toViewport s) 0 0 s.width s.height g0 r c =
        generateDivideAndConquer (toViewport s) 0 0 s.width s.height s.grid r c) := by
  have hdet : ∀ (gx gy : Grid) (r c : Nat), r < s.height → c < s.width →
      generateDivideAndConquer (toViewport s) 0 0 s.width s.height gx r c =
        generateDivideAndConquer (toViewport s) 0 0 s.width s.height gy r c := by
    intro gx gy r c hr hc
    exact dac_det (toViewport s) 0 0 s.width s.height gx gy
      (fun h0 => absurd h0 (by omega)) r c (by omega) (by omega) (by omega) (by omega)
  constructor
  · have hgrid : generateDivideAndConquer (toViewport s) 0 0 s.width s.height
        (generateDivideAndConquer (toViewport s) 0 0 s.width s.height s.grid) =
        generateDivideAndConquer (toViewport s) 0 0 s.width s.height s.grid := by
      funext r c
      by_cases hin : r < s.height ∧ c < s.width
      · exact hdet _ s.grid r c hin.1 hin.2
      · exact dac_frame (toViewport s) 0 0 s.width s.height _ r c (by omega)
    show (⟨s.width, s.height, s.center, s.resolution, s.top, s.left,
        generateDivideAndConquer (toViewport s) 0 0 s.width s.height
          (generateDivideAndConquer (toViewport s) 0 0 s.width s.height s.grid),
        s.maxIterations, true⟩ : Session) =
      ⟨s.width, s.height, s.center, s.resolution, s.top, s.left,
        generateDivideAndConquer (toViewport s) 0 0 s.width s.height s.grid,
        s.maxIterations, true⟩
    rw [hgrid]
  · intro g0 r c hr hc
    exact hdet g0 s.grid r c hr hc

theorem c9_witness :
    MandelbrotSet_fastGenerate (MandelbrotSet_fastGenerate sessionFive) =
      MandelbrotSet_fastGenerate sessionFive ∧
    (2 < sessionFive.height ∧ 2 < sessionFive.width) ∧
    generateDivideAndConquer (toViewport sessionFive) 0 0 sessionFive.width
        sessionFive.height g37 2 2 =
      generateDivideAndConquer (toViewport sessionFive) 0 0 sessionFive.width
        sessionFive.height sessionFive.grid 2 2 :=
  ⟨(c9_idempotent sessionFive).1, ⟨by decide, by decide⟩,
    (c9_idempotent sessionFive).2 g37 2 2 (by decide) (by decide)⟩

/-- C2 counterexample: the border-evaluation step does not always
compute every border pixel, and a line's first pixel is compared with
the grid cell just before the line rather than having no predecessor.
On the 3 x 3 viewport centered at (-1, -1) with maxIterations 2, the
top row scores 1 then 2, so evaluation stops inside the first line and
the bottom-left border pixel (2, 0) keeps its initial value 37, not its
escape score; and on the 5 x 5 origin viewport, the row line starting
at column 1 has uniform scores 1, 1, 1, yet generateBlockRow records it
as not uniform because its first pixel is compared to the untouched
cell at column 0 (value 37). -/
theorem c2_counterexample :
    (borderEval (toViewport sessionThree) 0 0 3 3 g37).2 2 0 = 37 ∧
    (escapeScoreAt (toViewport sessionThree) 2 0 : Int) ≠ 37 ∧
    (generateBlockRow (toViewport sessionFive) g37 0 1 3).1 = false ∧
    escapeScoreAt (toViewport sessionFive) 0 1 = escapeScoreAt (toViewport sessionFive) 0 2 ∧
    escapeScoreAt (toViewport sessionFive) 0 2 = escapeScoreAt (toViewport sessionFive) 0 3 := by
  refine ⟨?_, ?_, ?_, ?_, ?_⟩ <;>
    norm_num [borderEval, generateBlockRow, generateBlockCol, blockRowGo, blockColGo,
      generateSetPixel, setPix, escapeScoreAt, escapeScore, cardioidTest, escapeGo,
      pixelX, pixelY, toViewport, sessionThree, sessionFive, MandelbrotSet_setPosition,
      MandelbrotSet_setMaxIterations, createMandelbrotSet, g37]

/-- C2 (amended): when the border-evaluation step of the accelerated
generator reports uniform (canSkip true) for a rectangle with
width >= 3 and height >= 3, then every pixel of the top row, bottom
row, left column and right column (corners counted once, the column
lines excluding the top and bottom rows) holds its own escape score,
and within each of the four lines all scores are equal; when a
comparison fails, the step stops early and the remaining border pixels
are not computed, and a line whose first pixel has a positive global
index compares that pixel with the grid cell just before the line, so
a uniformly scored line may be recorded as not uniform. -/
theorem c2_amended (v : Viewport) (sx sy w h : Nat) (g : Grid)
    (hw : 3 ≤ w) (hh : 3 ≤ h)
    (htrue : (borderEval v sx sy w h g).1 = true) :
    ((∀ c, sx ≤ c → c < sx + w →
      (borderEval v sx sy w h g).2 sy c = (escapeScoreAt v sy c : Int) ∧
      (borderEval v sx sy w h g).2 (sy + h - 1) c =
        (escapeScoreAt v (sy + h - 1) c : Int)) ∧
    (∀ r, sy + 1 ≤ r → r < sy + h - 1 →
      (borderEval v sx sy w h g).2 r sx = (escapeScoreAt v r sx : Int) ∧
      (borderEval v sx sy w h g).2 r (sx + w - 1) =
        (escapeScoreAt v r (sx + w - 1) : Int))) ∧
    ((∀ c, sx < c → c < sx + w →
      escapeScoreAt v sy c = escapeScoreAt v sy (c - 1) ∧
      escapeScoreAt v (sy + h - 1) c = escapeScoreAt v (sy + h - 1) (c - 1)) ∧
    (∀ r, sy + 1 < r → r < sy + h - 1 →
      escapeScoreAt v r sx = escapeScoreAt v (r - 1) sx ∧
      escapeScoreAt v r (sx + w - 1) = escapeScoreAt v (r - 1) (sx + w - 1))) :=
  ⟨borderEval_true_border v sx sy w h g hw hh htrue,
   borderEval_true_uniform v sx sy w h g hw hh htrue⟩

theorem c2_witness :
    (borderEval (toViewport sessionFive) 0 0 5 5 g37).1 = true ∧
    (((∀ c, 0 ≤ c → c < 0 + 5 →
      (borderEval (toViewport sessionFive) 0 0 5 5 g37).2 0 c =
        (escapeScoreAt (toViewport sessionFive) 0 c : Int) ∧
      (borderEval (toViewport sessionFive) 0 0 5 5 g37).2 (0 + 5 - 1) c =
        (escapeScoreAt (toViewport sessionFive) (0 + 5 - 1) c : Int)) ∧
    (∀ r, 0 + 1 ≤ r → r < 0 + 5 - 1 →
      (borderEval (toViewport sessionFive) 0 0 5 5 g37).2 r 0 =
        (escapeScoreAt (toViewport sessionFive) r 0 : Int) ∧
      (borderEval (toViewport sessionFive) 0 0 5 5 g37).2 r (0 + 5 - 1) =
        (escapeScoreAt (toViewport sessionFive) r (0 + 5 - 1) : Int))) ∧
    ((∀ c, 0 < c → c < 0 + 5 →
      escapeScoreAt (toViewport sessionFive) 0 c =
        escapeScoreAt (toViewport sessionFive) 0 (c - 1) ∧
      escapeScoreAt (toViewport sessionFive) (0 + 5 - 1) c =
        escapeScoreAt (toViewport sessionFive) (0 + 5 - 1) (c - 1)) ∧
    (∀ r, 0 + 1 < r → r < 0 + 5 - 1 →
      escapeScoreAt (toViewport sessionFive) r 0 =
        escapeScoreAt (toViewport sessionFive) (r - 1) 0 ∧
      escapeScoreAt (toViewport sessionFive) r (0 + 5 - 1) =
        escapeScoreAt (toViewport sessionFive) (r - 1) (0 + 5 - 1)))) := by
  have hflag : (borderEval (toViewport sessionFive) 0 0 5 5 g37).1 = true := by
    norm_num [borderEval, generateBlockRow, generateBlockCol, blockRowGo, blockColGo,
      generateSetPixel, setPix, escapeScoreAt, escapeScore, cardioidTest, escapeGo,
      pixelX, pixelY, toViewport, sessionFive, MandelbrotSet_setPosition,
      MandelbrotSet_setMaxIterations, createMandelbrotSet, g37]
  exact ⟨hflag, c2_amended (toViewport sessionFive) 0 0 5 5 g37 (by norm_num)
    (by norm_num) hflag⟩

theorem orbit_origin (k : Nat) : orbit 0 0 k = (0, 0) := by
  induction k with
  | zero => rfl
  | succ k ih =>
    rw [orbit_succ, ih]
    norm_num

/-- C5 counterexample: after a completed fastGenerate on the 5 x 5
origin viewport with maxIterations 2, the central pixel (2, 2) has
coordinate (0, 0), whose orbit never escapes, yet its entry is 1, not
the sentinel maxIterations; and after the naive generate, pixel (1, 3)
has entry maxIterations although its point (1, 1) does escape (its
orbit reaches squared modulus 4 at iteration 2 = maxIterations).  So
an entry equal to maxIterations does not mean the pixel's point failed
to escape, and a non-escaping point need not receive maxIterations. -/
theorem c5_counterexample :
    ((MandelbrotSet_fastGenerate sessionFive).grid 2 2 = 1 ∧
     pixelX (toViewport sessionFive) 2 = 0 ∧
     pixelY (toViewport sessionFive) 2 = 0 ∧
     (∀ k, orbitNormSq 0 0 k < 4) ∧
     (1 : Int) ≠ (sessionFive.maxIterations : Int)) ∧
    ((MandelbrotSet_generate sessionFive).grid 1 3 = (sessionFive.maxIterations : Int) ∧
     pixelX (toViewport sessionFive) 3 = 1 ∧
     pixelY (toViewport sessionFive) 1 = 1 ∧
     4 ≤ orbitNormSq 1 1 2 ∧
     sessionFive.maxIterations = 2) := by
  constructor
  · refine ⟨?_, ?_, ?_, ?_, ?_⟩
    · show generateDivideAndConquer (toViewport sessionFive) 0 0 5 5 g37 2 2 = 1
      rw [generateDivideAndConquer.eq_def]
      norm_num [borderEval, generateBlockRow, generateBlockCol, blockRowGo, blockColGo,
        fillRowGo, fillColGo, generateSetPixel, setPix, escapeScoreAt, escapeScore,
        cardioidTest, escapeGo, pixelX, pixelY, toViewport, sessionFive,
        MandelbrotSet_setPosition, MandelbrotSet_setMaxIterations, createMandelbrotSet, g37]
    · norm_num [pixelX, toViewport, sessionFive, MandelbrotSet_setPosition,
        MandelbrotSet_setMaxIterations, createMandelbrotSet]
    · norm_num [pixelY, toViewport, sessionFive, MandelbrotSet_setPosition,
        MandelbrotSet_setMaxIterations, createMandelbrotSet]
    · intro k
      simp only [orbitNormSq, orbit_origin]
      norm_num
    · decide
  · refine ⟨?_, ?_, ?_, ?_, ?_⟩
    · show generateRectangle (toViewport sessionFive) 0 0 sessionFive.width
          sessionFive.height sessionFive.grid 1 3 = (sessionFive.maxIterations : Int)
      rw [generateRectangle_eval, if_pos (by decide)]
      norm_num [escapeScoreAt, escapeScore, cardioidTest, escapeGo, pixelX, pixelY,
        toViewport, sessionFive, MandelbrotSet_setPosition, MandelbrotSet_setMaxIterations,
        createMandelbrotSet]
    · norm_num [pixelX, toViewport, sessionFive, MandelbrotSet_setPosition,
        MandelbrotSet_setMaxIterations, createMandelbrotSet]
    · norm_num [pixelY, toViewport, sessionFive, MandelbrotSet_setPosition,
        MandelbrotSet_setMaxIterations, createMandelbrotSet]
    · norm_num [orbitNormSq, orbit]
    · rfl

/-- C5 (amended): after any completed generation with positive
maxIterations, every entry of the configured grid lies in
[1, maxIterations], hence in the claimed [0, maxIterations] (the lower
end is 1 because the scorer runs its first iteration before testing
the bound).  After generate() each entry is the pixel's own escape
score; it equals maxIterations exactly when the scorer certified
non-escape: the cardioid fast path fired or the orbit of the pixel's
coordinate stays below the escape radius for every iteration count
below maxIterations; and an entry below maxIterations is the exact
first escape index of the pixel's orbit (at least 1).  After
fastGenerate() every entry is some pixel's escape score (flood-filled
entries copy a border pixel's score), so the range invariant holds,
but the sentinel meaning of maxIterations applies to the pixel's own
point only for the naive generator, as the recorded counterexample
shows. -/
theorem c5_amended (s : Session) (hM : 1 ≤ s.maxIterations) (row col : Nat)
    (hrow : row < s.height) (hcol : col < s.width) :
    (1 ≤ (MandelbrotSet_generate s).grid row col ∧
      (MandelbrotSet_generate s).grid row col ≤ (s.maxIterations : Int)) ∧
    (1 ≤ (MandelbrotSet_fastGenerate s).grid row col ∧
      (MandelbrotSet_fastGenerate s).grid row col ≤ (s.maxIterations : Int)) ∧
    (MandelbrotSet_generate s).grid row col = (escapeScoreAt (toViewport s) row col : Int) ∧
    ((MandelbrotSet_generate s).grid row col = (s.maxIterations : Int) ↔
      (cardioidTest (pixelX (toViewport s) col) (pixelY (toViewport s) row) = true ∨
        ∀ k, k < s.maxIterations →
          orbitNormSq (pixelX (toViewport s) col) (pixelY (toViewport s) row) k < 4)) ∧
    ((MandelbrotSet_generate s).grid row col < (s.maxIterations : Int) →
      (1 ≤ escapeScoreAt (toViewport s) row col ∧
       4 ≤ orbitNormSq (pixelX (toViewport s) col) (pixelY (toViewport s) row)
         (escapeScoreAt (toViewport s) row col) ∧
       ∀ j, j < escapeScoreAt (toViewport s) row col →
         orbitNormSq (pixelX (toViewport s) col) (pixelY (toViewport s) row) j < 4)) := by
  have hA : (MandelbrotSet_generate s).grid row col =
      (escapeScoreAt (toViewport s) row col : Int) := by
    show generateRectangle (toViewport s) 0 0 s.width s.height s.grid row col = _
    rw [generateRectangle_eval, if_pos ⟨Nat.zero_le _, by omega, Nat.zero_le _, by omega⟩]
  have hle : escapeScoreAt (toViewport s) row col ≤ s.maxIterations :=
    escapeScore_le (toViewport s) _ _
  refine ⟨?_, ?_, hA, ?_, ?_⟩
  · rw [hA]
    constructor
    · exact_mod_cast escapeScore_pos (toViewport s) _ _ hM
    · exact_mod_cast hle
  · obtain ⟨r2, c2, he⟩ : ∃ r2 c2, (MandelbrotSet_fastGenerate s).grid row col =
        (escapeScoreAt (toViewport s) r2 c2 : Int) := by
      show ∃ r2 c2, generateDivideAndConquer (toViewport s) 0 0 s.width s.height s.grid
        row col = (escapeScoreAt (toViewport s) r2 c2 : Int)
      exact dac_cover (toViewport s) 0 0 s.width s.height s.grid row col
        (by omega) (by omega) (by omega) (by omega)
    rw [he]
    constructor
    · exact_mod_cast escapeScore_pos (toViewport s) (pixelX (toViewport s) c2)
        (pixelY (toViewport s) r2) hM
    · exact_mod_cast escapeScore_le (toViewport s) (pixelX (toViewport s) c2)
        (pixelY (toViewport s) r2)
  · rw [hA]
    exact Nat.cast_inj.trans
      (escapeScore_eq_max_iff (toViewport s) (pixelX (toViewport s) col)
        (pixelY (toViewport s) row))
  · intro hlt
    rw [hA] at hlt
    have hlt2 : escapeScoreAt (toViewport s) row col < s.maxIterations := by
      exact_mod_cast hlt
    obtain ⟨_, h4, hall⟩ := escapeScore_lt_cases (toViewport s) (pixelX (toViewport s) col)
      (pixelY (toViewport s) row) hlt2
    exact ⟨escapeScore_pos (toViewport s) _ _ hM, h4, hall⟩

theorem c5_witness :
    (1 ≤ (MandelbrotSet_generate sessionFive).grid 0 0 ∧
      (MandelbrotSet_generate sessionFive).grid 0 0 ≤ (sessionFive.maxIterations : Int)) ∧
    (1 ≤ (MandelbrotSet_fastGenerate sessionFive).grid 0 0 ∧
      (MandelbrotSet_fastGenerate sessionFive).grid 0 0 ≤ (sessionFive.maxIterations : Int)) ∧
    (MandelbrotSet_generate sessionFive).grid 0 0 =
      (escapeScoreAt (toViewport sessionFive) 0 0 : Int) ∧
    ((MandelbrotSet_generate sessionFive).grid 0 0 = (sessionFive.maxIterations : Int) ↔
      (cardioidTest (pixelX (toViewport sessionFive) 0) (pixelY (toViewport sessionFive) 0) =
          true ∨
        ∀ k, k < sessionFive.maxIterations →
          orbitNormSq (pixelX (toViewport sessionFive) 0) (pixelY (toViewport sessionFive) 0)
            k < 4)) ∧
    ((MandelbrotSet_generate sessionFive).grid 0 0 < (sessionFive.maxIterations : Int) →
      (1 ≤ escapeScoreAt (toViewport sessionFive) 0 0 ∧
       4 ≤ orbitNormSq (pixelX (toViewport sessionFive) 0) (pixelY (toViewport sessionFive) 0)
         (escapeScoreAt (toViewport sessionFive) 0 0) ∧
       ∀ j, j < escapeScoreAt (toViewport sessionFive) 0 0 →
         orbitNormSq (pixelX (toViewport sessionFive) 0) (pixelY (toViewport sessionFive) 0)
           j < 4)) :=
  c5_amended sessionFive (by decide) 0 0 (by decide) (by decide)

/-! ### C int loop semantics of generateRectangle, for the termination
claim: the for loops test with != on int counters, so negative
dimensions never meet the exit condition. -/

/-- An int-indexed grid, for the analysis of the C int loops. -/
def GridZ : Type := Int → Int → Int

/-- Store to one cell of an int-indexed grid. -/
def setPixZ (g : GridZ) (row col : Int) (v2 : Int) : GridZ :=
  fun r c => if r = row ∧ c = col then v2 else g r c

/-- Pixel-center x coordinate for an int column index. -/
def pixelXZ (v : Viewport) (col : Int) : ℚ :=
  v.left + (v.resolution * col + v.resolution / 2)

/-- Pixel-center y coordinate for an int row index. -/
def pixelYZ (v : Viewport) (row : Int) : ℚ :=
  v.top - (v.resolution * row + v.resolution / 2)

/-- generateSetPixel on int indices. -/
def generateSetPixelZ (v : Viewport) (g : GridZ) (row col : Int) : GridZ :=
  setPixZ g row col (escapeScore v (pixelXZ v col) (pixelYZ v row))

/-- The inner loop of generateRectangle with C int semantics:
for (col = startX; col != stopCol; ++col).  The guard is tested before
each body; the fuel bounds the number of guard tests, and none models
that the loop did not reach its exit condition within the fuel. -/
def colLoopInt (v : Viewport) (row stopCol : Int) : Nat → Int → GridZ → Option GridZ
  | 0, _, _ => none
  | fc + 1, col, g =>
    if col = stopCol then some g
    else colLoopInt v row stopCol fc (col + 1) (generateSetPixelZ v g row col)

/-- The outer loop of generateRectangle with C int semantics:
for (row = startY; row != startY + height; ++row), each iteration
running the inner loop over the columns. -/
def rowLoopInt (v : Viewport) (startX width stopRow : Int) :
    Nat → Nat → Int → GridZ → Option GridZ
  | 0, _, _, _ => none
  | fr + 1, fc, row, g =>
    if row = stopRow then some g
    else
      match colLoopInt v row (startX + width) fc startX g with
      | none => none
      | some g1 => rowLoopInt v startX width stopRow fr fc (row + 1) g1

/-- generateRectangle with C int loop semantics and explicit fuel for
the two loops. -/
def genRectInt (v : Viewport) (startX startY width height : Int) (fr fc : Nat) (g : GridZ) :
    Option GridZ :=
  rowLoopInt v startX width (startY + height) fr fc startY g

theorem colLoopInt_adequate (v : Viewport) (row : Int) :
    ∀ (n : Nat) (col : Int) (g : GridZ),
      ∃ g1, colLoopInt v row (col + (n : Int)) (n + 1) col g = some g1 := by
  intro n
  induction n with
  | zero =>
    intro col g
    refine ⟨g, ?_⟩
    simp only [colLoopInt]
    rw [if_pos (by omega)]
  | succ n ih =>
    intro col g
    have hne : ¬(col = col + ((n + 1 : Nat) : Int)) := by omega
    have hstep : col + ((n + 1 : Nat) : Int) = (col + 1) + (n : Int) := by
      push_cast
      ring
    simp only [colLoopInt]
    rw [if_neg hne, hstep]
    exact ih (col + 1) (generateSetPixelZ v g row col)

theorem rowLoopInt_adequate (v : Viewport) (startX : Int) (width : Int) (hw : 0 ≤ width) :
    ∀ (m : Nat) (row : Int) (g : GridZ),
      ∃ g1, rowLoopInt v startX width (row + (m : Int)) (m + 1) (width.toNat + 1) row g =
        some g1 := by
  intro m
  induction m with
  | zero =>
    intro row g
    refine ⟨g, ?_⟩
    simp only [rowLoopInt]
    rw [if_pos (by omega)]
  | succ m ih =>
    intro row g
    have hne : ¬(row = row + ((m + 1 : Nat) : Int)) := by omega
    have hstop : startX + width = startX + (width.toNat : Int) := by omega
    rw [rowLoopInt]
    rw [if_neg hne, hstop]
    obtain ⟨g1, hg1⟩ := colLoopInt_adequate v row width.toNat startX g
    rw [hg1]
    have hstep : row + ((m + 1 : Nat) : Int) = (row + 1) + (m : Int) := by
      push_cast
      ring
    rw [hstep]
    exact ih (row + 1) g1

theorem rowLoopInt_no_exit (v : Viewport) (startX width stopRow : Int) :
    ∀ (fr : Nat) (fc : Nat) (row : Int) (g : GridZ), stopRow < row →
      rowLoopInt v startX width stopRow fr fc row g = none := by
  intro fr
  induction fr with
  | zero => intro fc row g _; rfl
  | succ fr ih =>
    intro fc row g hlt
    simp only [rowLoopInt]
    rw [if_neg (by omega)]
    cases hcl : colLoopInt v row (startX + width) fc startX g with
    | none => rfl
    | some g1 => exact ih fc (row + 1) g1 (by omega)

theorem colLoopInt_no_exit (v : Viewport) (row stopCol : Int) :
    ∀ (fc : Nat) (col : Int) (g : GridZ), stopCol < col →
      colLoopInt v row stopCol fc col g = none := by
  intro fc
  induction fc with
  | zero => intro col g _; rfl
  | succ fc ih =>
    intro col g hlt
    simp only [colLoopInt]
    rw [if_neg (by omega)]
    exact ih (col + 1) (generateSetPixelZ v g row col) (by omega)

/-- C10: termination of the generators.  The naive rectangle loops
terminate exactly for non-negative dimensions: with width, height >= 0
the fueled int model of generateRectangle succeeds with fuel
height + 1 and width + 1 per loop, while a negative height (or a
negative width with at least one row) makes the != guard unreachable
and the loops run forever (none for every fuel).  In the recursive case
of generateDivideAndConquer both sides are at least 3, so all four
quadrants are strictly smaller in width, in height and in the
width + height measure that justifies the recursion, and rectangles
with a side under 3 delegate to generateRectangle instead of
recursing. -/
theorem c10_termination :
    (∀ (v : Viewport) (sx sy w h : Int) (g : GridZ), 0 ≤ w → 0 ≤ h →
      ∃ g1, genRectInt v sx sy w h (h.toNat + 1) (w.toNat + 1) g = some g1) ∧
    (∀ (v : Viewport) (sx sy w h : Int) (g : GridZ) (fr fc : Nat), h < 0 →
      genRectInt v sx sy w h fr fc g = none) ∧
    (∀ (v : Viewport) (sx sy w h : Int) (g : GridZ) (fr fc : Nat), w < 0 → 0 < h →
      genRectInt v sx sy w h fr fc g = none) ∧
    (∀ w h : Nat, 3 ≤ w → 3 ≤ h →
      1 ≤ w / 2 ∧ w / 2 < w ∧ w - w / 2 < w ∧ 1 ≤ h / 2 ∧ h / 2 < h ∧ h - h / 2 < h ∧
      w / 2 + h / 2 < w + h ∧ (w - w / 2) + h / 2 < w + h ∧
      w / 2 + (h - h / 2) < w + h ∧ (w - w / 2) + (h - h / 2) < w + h) ∧
    (∀ (v : Viewport) (sx sy w h : Nat) (g : Grid), w < 3 ∨ h < 3 →
      generateDivideAndConquer v sx sy w h g = generateRectangle v sx sy w h g) := by
  refine ⟨?_, ?_, ?_, ?_, ?_⟩
  · intro v sx sy w h g hw hh
    have hstop : sy + h = sy + (h.toNat : Int) := by omega
    unfold genRectInt
    rw [hstop]
    exact rowLoopInt_adequate v sx w hw h.toNat sy g
  · intro v sx sy w h g fr fc hh
    exact rowLoopInt_no_exit v sx w (sy + h) fr fc sy g (by omega)
  · intro v sx sy w h g fr fc hw hh
    unfold genRectInt
    cases fr with
    | zero => rfl
    | succ fr =>
      simp only [rowLoopInt]
      rw [if_neg (by omega)]
      rw [colLoopInt_no_exit v sy (sx + w) fc sx g (by omega)]
  · intro w h hw hh
    refine ⟨by omega, by omega, by omega, by omega, by omega, by omega, by omega, by omega,
      by omega, by omega⟩
  · intro v sx sy w h g hsmall
    rw [generateDivideAndConquer.eq_def, if_pos hsmall]

/-- A concrete int-indexed grid for the termination witness. -/
def gz37 : GridZ := fun _ _ => 37

theorem c10_witness :
    (∃ g1, genRectInt (toViewport sessionFive) 0 0 2 2 ((2 : Int).toNat + 1)
      ((2 : Int).toNat + 1) gz37 = some g1) ∧
    genRectInt (toViewport sessionFive) 0 0 2 (-1) 7 7 gz37 = none ∧
    genRectInt (toViewport sessionFive) 0 0 (-1) 2 7 7 gz37 = none ∧
    (1 ≤ 3 / 2 ∧ 3 / 2 < 3 ∧ 3 - 3 / 2 < 3 ∧ 1 ≤ 3 / 2 ∧ 3 / 2 < 3 ∧ 3 - 3 / 2 < 3 ∧
      3 / 2 + 3 / 2 < 3 + 3 ∧ (3 - 3 / 2) + 3 / 2 < 3 + 3 ∧
      3 / 2 + (3 - 3 / 2) < 3 + 3 ∧ (3 - 3 / 2) + (3 - 3 / 2) < 3 + 3) ∧
    generateDivideAndConquer (toViewport sessionFive) 0 0 2 2 g37 =
      generateRectangle (toViewport sessionFive) 0 0 2 2 g37 :=
  ⟨c10_termination.1 (toViewport sessionFive) 0 0 2 2 gz37 (by norm_num) (by norm_num),
   c10_termination.2.1 (toViewport sessionFive) 0 0 2 (-1) gz37 7 7 (by norm_num),
   c10_termination.2.2.1 (toViewport sessionFive) 0 0 (-1) 2 gz37 7 7 (by norm_num)
     (by norm_num),
   c10_termination.2.2.2.1 3 3 (by norm_num) (by norm_num),
   c10_termination.2.2.2.2 (toViewport sessionFive) 0 0 2 2 g37 (Or.inl (by norm_num))⟩
